import Mathlib

/-!
Verification of the feed_checker_gui repository's specification-matching and
field-extraction engine (src/feed_checker_gui.py, src/feed_specs.py,
src/pages/2_Feed_Fixer.py) against its natural-language specification.

XML documents are shallowly embedded as an element tree `Elem`; Python strings
are Lean `String`s; the limited XPath dialect used by the sources (child paths,
descendant-tag paths, attribute selectors) is embedded as the inductive `XPath`.
Namespaced tags use ElementTree's braced form "\x7buri\x7dlocal" verbatim.
-/

namespace FeedChecker

/-- Does `sub` occur as a contiguous run inside `l`? (structural, so it
reduces in the kernel). -/
def hasRun (sub : List Char) : List Char → Bool
  | [] => sub.isEmpty
  | c :: t => sub.isPrefixOf (c :: t) || hasRun sub t

/-- Python `sub in s` substring test. -/
def strContains (s sub : String) : Bool :=
  hasRun sub.toList s.toList

/-- ASCII lower-casing of one character; models Python `str.lower` on the
ASCII tag/alias strings the sources lower-case (no non-ASCII letters occur
in any tag constant of the sources). -/
def charLower (c : Char) : Char :=
  if 'A' ≤ c ∧ c ≤ 'Z' then Char.ofNat (c.toNat + 32) else c

/-- Python `str.lower` restricted to ASCII letters. -/
def asciiLower (s : String) : String :=
  String.mk (s.toList.map charLower)

/-- ASCII whitespace as stripped by Python `str.strip()` on feed text. -/
def isWs (c : Char) : Bool :=
  c = ' ' || c = '\t' || c = '\n' || c = '\r'

/-- Python `str.strip()` on the whitespace that occurs in feeds
(space, tab, CR, LF); models the `.strip()` calls of the sources. -/
def pyStrip (s : String) : String :=
  String.mk (((s.toList.dropWhile isWs).reverse.dropWhile isWs).reverse)

/-- src/feed_checker_gui.py:17 and src/feed_specs.py:19 `strip_ns`:
`tag.split('}', 1)[1] if '}' in tag else tag`. -/
def strip_ns (tag : String) : String :=
  if tag.toList.contains '\x7d' then
    String.mk ((tag.toList.dropWhile (· ≠ '\x7d')).drop 1)
  else tag

/-- The Google Merchant namespace URI (`NS["g"]` in the sources). -/
def gURI : String := "http://base.google.com/ns/1.0"

/-- The substring tested by the detectors (`b"base.google.com/ns/1.0"`). -/
def gFrag : String := "base.google.com/ns/1.0"

/-- ElementTree's fully-qualified tag "\x7buri\x7dlocal" for the g: namespace. -/
def gTag (l : String) : String := "\x7b" ++ gURI ++ "\x7d" ++ l

/-- The Atom namespace URI (`NS["atom"]`). -/
def atomURI : String := "http://www.w3.org/2005/Atom"

/-- An XML element as exposed by `xml.etree.ElementTree`:
tag (fully qualified, braced-namespace form), attributes, text
(Python `elem.text or ""`), and child elements in document order. -/
structure Elem where
  tag : String
  attrs : List (String × String)
  text : String
  children : List Elem
deriving Repr

mutual
/-- Python `elem.iter()`: self followed by all descendants, preorder. -/
def Elem.iterAll : Elem → List Elem
  | .mk t a x cs => .mk t a x cs :: iterAllList cs

/-- Preorder traversal of a forest of elements. -/
def iterAllList : List Elem → List Elem
  | [] => []
  | c :: cs => c.iterAll ++ iterAllList cs
end

/-- Python `elem.get(name)` on attributes (first match; `or ""` applied). -/
def Elem.getAttr (e : Elem) (name : String) : String :=
  match e.attrs.find? (fun p => p.1 = name) with
  | some p => p.2
  | none => ""

/-- The XPath dialect actually used by the sources, with namespace prefixes
(`g:`, `atom:`) pre-resolved to the braced qualified tag:
`child ["a","b"]` is "./a/b", `descendant "t"` is ".//t",
`attrOf "n"` is "@n", `childAttr segs "n"` is "./…/@n". -/
inductive XPath where
  | child (segs : List String)
  | descendant (tag : String)
  | attrOf (name : String)
  | childAttr (segs : List String) (name : String)
deriving Repr, DecidableEq

/-- Children of `e` whose (qualified) tag equals `t`, in document order. -/
def childrenWithTag (e : Elem) (t : String) : List Elem :=
  e.children.filter (fun c => c.tag = t)

/-- Follow a chain of child steps from each element in turn (ElementTree's
match order for "./a/b": per `a`-child in order, its `b`-children in order). -/
def resolveSegs (es : List Elem) : List String → List Elem
  | [] => es
  | t :: ts => resolveSegs (es.flatMap (fun e => childrenWithTag e t)) ts

/-- `elem.findall(path)` for the element-valued paths of the sources:
"./a/b" walks child steps; ".//t" selects every strict descendant with tag
`t` in document order. Attribute paths select no elements. -/
def findElems (e : Elem) (p : XPath) : List Elem :=
  match p with
  | .child segs => resolveSegs [e] segs
  | .descendant t => (iterAllList e.children).filter (fun c => c.tag = t)
  | .attrOf _ => []
  | .childAttr _ _ => []

/-- `elem.find(path)`: first match in document order, `None` when absent. -/
def findElem (e : Elem) (p : XPath) : Option Elem :=
  (findElems e p).head?

/-- src/feed_checker_gui.py:70 `get_text`: first path whose found element has
non-empty stripped text wins; `None` when no path yields one. -/
def get_text (elem : Elem) (paths : List XPath) : Option String :=
  match paths with
  | [] => none
  | xp :: rest =>
    match findElem elem xp with
    | some found =>
      if pyStrip found.text ≠ "" then some (pyStrip found.text)
      else get_text elem rest
    | none => get_text elem rest

/-- src/feed_checker_gui.py:20 `iter_local_children_tags`. -/
def iter_local_children_tags (elem : Elem) : List String :=
  elem.children.map (fun c => asciiLower (strip_ns c.tag))

/-- src/feed_checker_gui.py:39 `StrictSpec` (the diagnostic-only fields
`signature_tags`, `expected_root_locals`, `required_ns_fragments` feed only
the float-scored closest-match report and are not consumed by any function
verified here). `availability_aliases` is stored lower-cased, as `__init__`
does. -/
structure StrictSpec where
  name : String
  detect_fn : Elem → Bool
  items_getter : Elem → List Elem
  id_xpath : List XPath
  url_xpath : List XPath
  image_xpath : List XPath
  required_item_children : List String
  availability_xpath : List XPath
  availability_aliases : List String

/-- src/feed_checker_gui.py:77 `make_xpath_items_getter`. -/
def make_xpath_items_getter (p : XPath) : Elem → List Elem :=
  fun root => findElems root p

/-- src/feed_checker_gui.py:82 `atom_entry_items_getter`. -/
def atom_entry_items_getter (root : Elem) : List Elem :=
  root.iterAll.filter (fun e => asciiLower (strip_ns e.tag) = "entry")

/-- src/feed_checker_gui.py:87 `detect_google_rss`. -/
def detect_google_rss (root : Elem) : Bool :=
  if asciiLower (strip_ns root.tag) ≠ "rss" then false
  else
    let has_item := root.iterAll.any (fun e => asciiLower (strip_ns e.tag) = "item")
    let has_g := root.iterAll.any (fun c => strContains c.tag gFrag)
    has_item && has_g

/-- src/feed_checker_gui.py:94 `detect_google_atom`. -/
def detect_google_atom (root : Elem) : Bool :=
  if asciiLower (strip_ns root.tag) ≠ "feed" then false
  else
    let has_g_ns := root.iterAll.any (fun c => strContains c.tag gFrag)
    if !has_g_ns then false
    else (atom_entry_items_getter root).length > 0

/-- src/feed_checker_gui.py:102 `detect_heureka`. -/
def detect_heureka (root : Elem) : Bool :=
  (findElem root (.descendant "SHOPITEM")).isSome

/-- src/feed_checker_gui.py:105 `detect_compari_ci`. -/
def detect_compari_ci (root : Elem) : Bool :=
  let products := findElems root (.descendant "product")
  if products.isEmpty then false
  else
    products.any (fun p =>
      let tags := p.children.map (fun c => asciiLower (strip_ns c.tag))
      (tags.contains "identifier" || tags.contains "productid") &&
      (["name", "product_url", "price", "image_url"].all (fun t => tags.contains t)))

/-- src/feed_checker_gui.py:117 `detect_skroutz_strict`. -/
def detect_skroutz_strict (root : Elem) : Bool :=
  let products := findElems root (.descendant "product")
  if products.isEmpty then false
  else
    products.any (fun p =>
      let tags := p.children.map (fun c => asciiLower (strip_ns c.tag))
      ["price_with_vat", "image", "link"].all (fun t => tags.contains t))

/-- src/feed_checker_gui.py:127 `detect_ceneje`. -/
def detect_ceneje (root : Elem) : Bool :=
  (findElem root (.descendant "Item")).isSome || (findElem root (.descendant "item")).isSome

/-- src/feed_checker_gui.py:130 `detect_ceneo`. -/
def detect_ceneo (root : Elem) : Bool :=
  (findElem root (.descendant "o")).isSome

/-- src/feed_checker_gui.py:135 `SPECS`, in source order. Where the source
lists both the braced and the `g:`-prefixed spelling of the same path, both
entries are kept (they resolve to the same qualified path). -/
def SPECS : List StrictSpec := [
  { name := "Google Merchant (g:) RSS",
    detect_fn := detect_google_rss,
    items_getter := make_xpath_items_getter (.descendant "item"),
    id_xpath := [.child [gTag "id"], .child [gTag "id"]],
    url_xpath := [.child ["link"], .child [gTag "link"], .child [gTag "link"]],
    image_xpath := [.child [gTag "image_link"], .child [gTag "image_link"]],
    required_item_children := ["title", "description", "link", "image_link"],
    availability_xpath := [.child [gTag "availability"], .child [gTag "availability"]],
    availability_aliases := ["availability"] },
  { name := "Google Merchant (g:) Atom",
    detect_fn := detect_google_atom,
    items_getter := atom_entry_items_getter,
    id_xpath := [.child [gTag "id"], .child [gTag "id"]],
    url_xpath := [.child [gTag "link"], .child [gTag "link"]],
    image_xpath := [.child [gTag "image_link"], .child [gTag "image_link"]],
    required_item_children := ["id", "link", "image_link"],
    availability_xpath := [.child [gTag "availability"], .child [gTag "availability"]],
    availability_aliases := ["availability"] },
  { name := "Heureka strict",
    detect_fn := detect_heureka,
    items_getter := make_xpath_items_getter (.descendant "SHOPITEM"),
    id_xpath := [.child ["ITEM_ID"]],
    url_xpath := [.child ["URL"]],
    image_xpath := [.child ["IMGURL"]],
    required_item_children := ["item_id", "productname", "url", "imgurl"],
    availability_xpath := [.child ["AVAILABILITY"], .child ["DELIVERY"], .child ["delivery"],
                           .child ["AVAILABILITY_DESC"]],
    availability_aliases := ["availability", "delivery", "availability_desc"] },
  { name := "Compari / Árukereső / Pazaruvaj (case-insensitive)",
    detect_fn := detect_compari_ci,
    items_getter := make_xpath_items_getter (.descendant "product"),
    id_xpath := [.child ["Identifier"], .child ["identifier"], .child ["ProductId"],
                 .child ["productid"], .child ["id"]],
    url_xpath := [.child ["Product_url"], .child ["product_url"], .child ["URL"],
                  .child ["url"], .child ["link"]],
    image_xpath := [.child ["Image_url"], .child ["image_url"], .child ["image"],
                    .child ["imgurl"]],
    required_item_children := ["identifier|productid", "name", "product_url", "price",
                               "image_url", "category", "description"],
    availability_xpath := [.child ["availability"], .child ["in_stock"], .child ["stock"],
                           .child ["availability_status"]],
    availability_aliases := ["availability", "in_stock", "stock", "availability_status"] },
  { name := "Skroutz strict",
    detect_fn := detect_skroutz_strict,
    items_getter := make_xpath_items_getter (.descendant "product"),
    id_xpath := [.child ["id"]],
    url_xpath := [.child ["link"]],
    image_xpath := [.child ["image"]],
    required_item_children := ["id", "name", "link", "image", "price_with_vat"],
    availability_xpath := [.child ["availability"], .child ["in_stock"], .child ["stock"]],
    availability_aliases := ["availability", "in_stock", "stock"] },
  { name := "Jeftinije / Ceneje strict",
    detect_fn := detect_ceneje,
    items_getter := make_xpath_items_getter (.descendant "Item"),
    id_xpath := [.child ["ID"], .child ["id"]],
    url_xpath := [.child ["link"]],
    image_xpath := [.child ["mainImage"], .child ["image"]],
    required_item_children := ["id", "name", "link", "mainimage|image", "price"],
    availability_xpath := [.child ["availability"], .child ["in_stock"], .child ["stock"]],
    availability_aliases := ["availability", "in_stock", "stock"] },
  { name := "Ceneo strict",
    detect_fn := detect_ceneo,
    items_getter := make_xpath_items_getter (.descendant "o"),
    id_xpath := [.child ["id"]],
    url_xpath := [.child ["url"]],
    image_xpath := [.child ["imgs", "main"], .child ["image"]],
    required_item_children := ["name", "price", "cat", "url"],
    availability_xpath := [.child ["availability"], .child ["stock"], .child ["avail"]],
    availability_aliases := ["availability", "stock", "avail"] }
]

/-- src/feed_checker_gui.py:243 `has_availability`. -/
def has_availability (it : Elem) (spec : StrictSpec) : Bool :=
  match get_text it spec.availability_xpath with
  | some _ => true
  | none =>
    let child_locals_lower := iter_local_children_tags it
    spec.availability_aliases.any (fun al => child_locals_lower.contains al)

/-- The two issue lists built by `find_url_issues`. -/
structure UrlIssues where
  spaces : List String
  non_ascii : List String
deriving Repr, DecidableEq

/-- src/feed_checker_gui.py:252 `find_url_issues`: skip empty values, collect
values containing a literal space resp. a character above 0x7F, then keep at
most 20 examples per category. -/
def find_url_issues (urls : List String) : UrlIssues :=
  let spaces := urls.filter (fun u => u ≠ "" && u.toList.contains ' ')
  let nonAscii := urls.filter (fun u => u ≠ "" && u.toList.any (fun ch => ch.toNat > 127))
  { spaces := spaces.take 20, non_ascii := nonAscii.take 20 }

/-- One step of Python's insertion-ordered `collections.Counter`. -/
def counterAdd (acc : List (String × Nat)) (v : String) : List (String × Nat) :=
  match acc with
  | [] => [(v, 1)]
  | (k, c) :: rest => if k = v then (k, c + 1) :: rest else (k, c) :: counterAdd rest v

/-- `collections.Counter(vals)` as an assoc list in first-seen order. -/
def counter (vals : List String) : List (String × Nat) :=
  vals.foldl counterAdd []

/-- src/feed_checker_gui.py:441 `dup_map` (inside `analyze_feed`): drop empty
values, count, and keep the values occurring more than once with their counts. -/
def dup_map (values : List String) : List (String × Nat) :=
  let vals := values.filter (fun v => v ≠ "")
  (counter vals).filter (fun kc => kc.2 > 1)

/-- Python `req.split('|')` as a char-list split. -/
def splitOnChar (sep : Char) : List Char → List (List Char)
  | [] => [[]]
  | c :: t =>
    let r := splitOnChar sep t
    if c = sep then [] :: r
    else
      match r with
      | [] => [[c]]
      | h :: hs => (c :: h) :: hs

/-- src/feed_checker_gui.py:413-420: the `missing_required` Counter of
`analyze_feed` — per item, per required group, count the items whose child
local names contain none of the group's (stripped, lowered) aliases. -/
def missingRequired (spec : StrictSpec) (items : List Elem) : List (String × Nat) :=
  items.foldl (fun acc it =>
    let child_locals_lower := iter_local_children_tags it
    spec.required_item_children.foldl (fun acc2 req =>
      let aliases := (splitOnChar '|' req.toList).map
        (fun cs => asciiLower (pyStrip (String.mk cs)))
      if aliases.any (fun a => child_locals_lower.contains a) then acc2
      else counterAdd acc2 req) acc) []

/-- The fields of `analyze_feed`'s result dict that the verified claims
concern (the float-scored `top_candidates` / `unrecognized_details`
diagnostics are reported alongside but never influence these fields). -/
structure AnalyzeOut where
  xml_ok : Bool
  detected : Option String
  items : Nat
  missing_required : List (String × Nat)
  ids : List String
  urls : List String
  imgs : List String
  dup_ids : List (String × Nat)
  dup_urls : List (String × Nat)
  missing_img_count : Nat
  missing_availability_count : Nat
  severity : String
  notes : List String
  url_issues_products : UrlIssues
  url_issues_images : UrlIssues

/-- The initial `out` dict of `analyze_feed` (src/feed_checker_gui.py:364). -/
def initOut : AnalyzeOut :=
  { xml_ok := false, detected := none, items := 0, missing_required := [],
    ids := [], urls := [], imgs := [], dup_ids := [], dup_urls := [],
    missing_img_count := 0, missing_availability_count := 0,
    severity := "PASS", notes := [],
    url_issues_products := ⟨[], []⟩, url_issues_images := ⟨[], []⟩ }

/-- src/feed_checker_gui.py:363 `analyze_feed`. The caller-side
`ET.fromstring(feed_bytes)` try/except is modeled by the `Except` input:
`.error msg` is a raised `ET.ParseError`, `.ok root` a well-formed parse. -/
def analyze_feed (inp : Except String Elem) : AnalyzeOut :=
  match inp with
  | .error e =>
    { initOut with severity := "FAIL", notes := ["XML parse error: " ++ e] }
  | .ok root =>
    let out0 := { initOut with xml_ok := true }
    match SPECS.find? (fun s => s.detect_fn root) with
    | none =>
      { out0 with detected := some "Unrecognized", severity := "FAIL" }
    | some spec =>
      let items := spec.items_getter root
      if items.length = 0 then
        { out0 with
          detected := some spec.name, severity := "FAIL",
          notes := ["No items found for detected transformation."] }
      else
        let mr := missingRequired spec items
        let ids := items.map (fun it => (get_text it spec.id_xpath).getD "")
        let urls := items.map (fun it => (get_text it spec.url_xpath).getD "")
        let imgs := items.map (fun it => (get_text it spec.image_xpath).getD "")
        let uip := find_url_issues urls
        let uii := find_url_issues imgs
        let mac := (items.map (fun it => has_availability it spec)).countP (fun ok => ok = false)
        let id_dupes := dup_map ids
        let url_dupes := dup_map urls
        let mic := (imgs.filter (fun x => x = "")).length
        let sev1 := if !id_dupes.isEmpty || !url_dupes.isEmpty then "FAIL" else "PASS"
        let sev :=
          if sev1 ≠ "FAIL" then
            if !mr.isEmpty || mic > 0 || mac > 0 then "WARN" else "PASS"
          else sev1
        { out0 with
          detected := some spec.name, items := items.length,
          missing_required := mr, ids := ids, urls := urls, imgs := imgs,
          dup_ids := id_dupes, dup_urls := url_dupes,
          missing_img_count := mic, missing_availability_count := mac,
          severity := sev, url_issues_products := uip, url_issues_images := uii }

/-- The strict-detection step of `analyze_feed`
(src/feed_checker_gui.py:389): the first spec whose predicate accepts the
document, by name; `none` is the "Unrecognized" outcome. -/
def detected_spec_name (root : Elem) : Option String :=
  (SPECS.find? (fun s => s.detect_fn root)).map (fun s => s.name)

/-! ### src/feed_specs.py -/

/-- src/feed_specs.py:76 `_select_value` over the embedded path forms:
`@name` reads an attribute of the current element, `./…/@name` an attribute
of a found descendant, element paths the found node's text (note the source
returns "" when the node exists but its text is falsy). -/
def _select_value (elem : Elem) (p : XPath) : String :=
  match p with
  | .attrOf name => pyStrip (elem.getAttr name)
  | .childAttr segs name =>
    match findElem elem (.child segs) with
    | some n => pyStrip (n.getAttr name)
    | none => ""
  | _ =>
    match findElem elem p with
    | some n => if n.text ≠ "" then pyStrip n.text else ""
    | none => ""

/-- src/feed_specs.py:102 `_first`: first path whose selected value is
non-empty wins; "" when none yields. -/
def _first (elem : Elem) (paths : List XPath) : String :=
  match paths with
  | [] => ""
  | p :: rest =>
    let t := _select_value elem p
    if t ≠ "" then t else _first elem rest

/-- Python `str.isdigit()` on the ASCII digit strings that occur in feeds. -/
def isDigitStr (s : String) : Bool :=
  s ≠ "" && s.toList.all (fun c => '0' ≤ c && c ≤ '9')

/-- Python `int(...)` on a digit string. -/
def strToNat (s : String) : Nat :=
  s.toList.foldl (fun a c => a * 10 + (c.toNat - 48)) 0

/-- The `availability_paths` entries of the `SPEC` table
(src/feed_specs.py:141); these are the only `SPEC` fields consumed by
`read_availability`, the function verified here. -/
def SPEC_availability_paths : List (String × List XPath) := [
  ("Google Merchant (g:) RSS",
   [.child [gTag "availability"], .child [gTag "availability"]]),
  ("Google Merchant (g:) Atom",
   [.child [gTag "availability"], .child [gTag "availability"]]),
  ("Google Merchant (no-namespace) RSS", [.child ["availability"]]),
  ("Heureka strict",
   [.child ["AVAILABILITY"], .child ["DELIVERY"], .child ["delivery"],
    .child ["AVAILABILITY_DESC"], .child ["DELIVERY_DATE"]]),
  ("Compari / Árukereső / Pazaruvaj (case-insensitive)",
   [.child ["availability"], .child ["in_stock"], .child ["stock"],
    .child ["availability_status"], .child ["Delivery_time"]]),
  ("Skroutz strict",
   [.child ["availability"], .child ["in_stock"], .child ["stock"]]),
  ("Jeftinije / Ceneje strict",
   [.child ["availability"], .child ["in_stock"], .child ["stock"]]),
  ("Ceneo strict", [.attrOf "avail", .attrOf "availability", .attrOf "stock"])
]

/-- `SPEC.get(spec_name, {}).get("availability_paths", [])`. -/
def availability_paths_of (spec_name : String) : List XPath :=
  match SPEC_availability_paths.find? (fun p => p.1 = spec_name) with
  | some p => p.2
  | none => []

/-- src/feed_specs.py:386 `read_availability`: explicit availability paths
first; the Heureka special rule (`DELIVERY_DATE` a digit string `< 3` maps
to "in stock") only as a fallback; "" otherwise. -/
def read_availability (elem : Elem) (spec_name : String) : String :=
  let paths := availability_paths_of spec_name
  let val := if paths ≠ [] then _first elem paths else ""
  if val ≠ "" then val
  else if spec_name = "Heureka strict" then
    let dd := _first elem [.child ["DELIVERY_DATE"]]
    if dd ≠ "" && isDigitStr dd && strToNat dd < 3 then "in stock" else ""
  else ""

/-- src/feed_specs.py:59 `_exists_local`. -/
def _exists_local (root : Elem) (localname : String) : Bool :=
  root.iterAll.any (fun e => asciiLower (strip_ns e.tag) = asciiLower localname)

/-- src/feed_specs.py:66 `_first_local`. -/
def _first_local (root : Elem) (localname : String) : Option Elem :=
  root.iterAll.find? (fun e => asciiLower (strip_ns e.tag) = asciiLower localname)

/-- src/feed_specs.py:278 `_exists`. -/
def _exists (root : Elem) (p : XPath) : Bool :=
  (findElem root p).isSome

/-- Models `needle in ET.tostring(root)`: serialization of the element tree
concatenates tag names (namespace URIs of braced tags reappear verbatim in
the generated `xmlns` declarations), attribute names and values, and
character data, separated by markup (`<`, `>`, `"`, `=`, whitespace). The
namespace fragment tested by the detectors contains none of those delimiter
characters, so it occurs in the serialized bytes iff it occurs inside one of
those strings. -/
def tostring_contains (root : Elem) (needle : String) : Bool :=
  root.iterAll.any (fun e =>
    strContains e.tag needle ||
    e.attrs.any (fun p => strContains p.1 needle || strContains p.2 needle) ||
    strContains e.text needle)

/-- src/feed_specs.py:26 `_looks_like_google_without_ns`. -/
def _looks_like_google_without_ns (root : Elem) : Bool :=
  if tostring_contains root gFrag then false
  else if asciiLower (strip_ns root.tag) ≠ "rss" then false
  else
    match findElem root (.descendant "item") with
    | none => false
    | some first_item =>
      let locals_ := first_item.children.map (fun c => asciiLower (strip_ns c.tag))
      let googleish := ["id", "link", "image_link", "price", "availability",
                        "product_type", "title", "description"]
      let core := ["id", "link", "image_link"]
      decide (googleish.countP (fun gname => locals_.contains gname) ≥ 3) &&
        core.all (fun t => locals_.contains t)

/-- src/feed_specs.py:281 `detect_spec`. Python's `find(...) or
_first_local(...)` uses ElementTree truthiness: an element with no children
is falsy, so the case-insensitive fallback is consulted then too. -/
def detect_spec (root : Elem) : String :=
  let root_xml_hasG := tostring_contains root gFrag
  if root.iterAll.any (fun e => asciiLower (strip_ns e.tag) = "entry") && root_xml_hasG then
    "Google Merchant (g:) Atom"
  else if _exists root (.descendant "item") && root_xml_hasG then
    "Google Merchant (g:) RSS"
  else if _looks_like_google_without_ns root then
    "Google Merchant (no-namespace) RSS"
  else if _exists root (.descendant "SHOPITEM") || _exists_local root "shopitem" then
    "Heureka strict"
  else if _exists root (.descendant "o") || _exists_local root "o" then
    "Ceneo strict"
  else if _exists root (.descendant "Item") || _exists_local root "item" then
    "Jeftinije / Ceneje strict"
  else if _exists root (.descendant "product") || _exists_local root "product" then
    let found := findElem root (.descendant "product")
    let sample :=
      match found with
      | some p => if p.children.isEmpty then _first_local root "product" else some p
      | none => _first_local root "product"
    match sample with
    | none => "Compari / Árukereső / Pazaruvaj (case-insensitive)"
    | some s =>
      if (findElem s (.child ["price_with_vat"])).isSome ||
         s.children.any (fun c => asciiLower (strip_ns c.tag) = "price_with_vat") then
        "Skroutz strict"
      else "Compari / Árukereső / Pazaruvaj (case-insensitive)"
  else if root.iterAll.any (fun e => asciiLower (strip_ns e.tag) = "entry") && root_xml_hasG then
    "Google Merchant (g:) Atom"
  else if (_exists root (.descendant "item") || _exists_local root "item") && root_xml_hasG then
    "Google Merchant (g:) RSS"
  else "UNKNOWN"

/-! ### src/pages/2_Feed_Fixer.py -/

/-- src/pages/2_Feed_Fixer.py:35 `find_first_text`. -/
def find_first_text (elem : Elem) (paths : List XPath) : String :=
  match paths with
  | [] => ""
  | p :: rest =>
    match findElem elem p with
    | some n =>
      let t := pyStrip n.text
      if t ≠ "" then t else find_first_text elem rest
    | none => find_first_text elem rest

/-- `FIELD_MAPS["HEUREKA"].get("availability", [])`
(src/pages/2_Feed_Fixer.py:120): the HEUREKA map declares no
`availability` key, so the selector list is empty. -/
def heureka_fixer_availability_paths : List XPath := []

/-- `FIELD_MAPS["HEUREKA"]["availability_hint"]` = `["./DELIVERY_DATE"]`. -/
def heureka_fixer_availability_hint_paths : List XPath := [.child ["DELIVERY_DATE"]]

/-- The availability value of one HEUREKA row of `extract_by_map`
(src/pages/2_Feed_Fixer.py:295-307): the plain `availability` selector read,
then — only when that is empty — the `DELIVERY_DATE < 3 ⇒ "in stock"`
derivation. -/
def fixer_heureka_availability (it : Elem) : String :=
  let avail := find_first_text it heureka_fixer_availability_paths
  if avail ≠ "" then avail
  else
    let hint := find_first_text it heureka_fixer_availability_hint_paths
    if hint ≠ "" && isDigitStr (pyStrip hint) && strToNat (pyStrip hint) < 3 then
      "in stock"
    else avail

/-! ### URL percent-encoding
`percent_encode_url` (src/feed_specs.py:130 and src/pages/2_Feed_Fixer.py:25,
identical bodies) = `urlunsplit` over `quote`-encoded path/query/fragment of
`urlsplit`. The stdlib pieces it calls are embedded below following current
CPython `urllib.parse`. -/

/-- UTF-8 encoding of one code point (Python `str.encode('utf-8')`). -/
def utf8EncodeChar (c : Char) : List Nat :=
  let n := c.toNat
  if n < 0x80 then [n]
  else if n < 0x800 then [0xC0 + n / 64, 0x80 + n % 64]
  else if n < 0x10000 then [0xE0 + n / 4096, 0x80 + (n / 64) % 64, 0x80 + n % 64]
  else [0xF0 + n / 262144, 0x80 + (n / 4096) % 64, 0x80 + (n / 64) % 64, 0x80 + n % 64]

/-- UTF-8 bytes of a string. -/
def utf8Bytes (s : String) : List Nat :=
  s.toList.flatMap utf8EncodeChar

/-- `urllib.parse.quote`'s always-safe bytes: ASCII letters, digits,
and `_.-~`. -/
def alwaysSafeByte (b : Nat) : Bool :=
  (65 ≤ b && b ≤ 90) || (97 ≤ b && b ≤ 122) || (48 ≤ b && b ≤ 57) ||
  b = 95 || b = 46 || b = 45 || b = 126

/-- Uppercase hex digit (as `quote` emits). -/
def hexDigitU (n : Nat) : Char :=
  if n < 10 then Char.ofNat (48 + n) else Char.ofNat (55 + n)

/-- `quote` of one byte: kept verbatim when always-safe or in the caller's
safe set, else `%XX` with uppercase hex. -/
def quoteByte (safeBytes : List Nat) (b : Nat) : List Char :=
  if alwaysSafeByte b || safeBytes.contains b then [Char.ofNat b]
  else ['%', hexDigitU (b / 16), hexDigitU (b % 16)]

/-- `urllib.parse.quote(s, safe=...)`: percent-encode the UTF-8 bytes of `s`
that are neither always-safe nor in `safe`. -/
def pyQuote (s : String) (safe : String) : String :=
  let safeBytes := (safe.toList.map Char.toNat).filter (fun b => b < 128)
  String.mk ((utf8Bytes s).flatMap (quoteByte safeBytes))

/-- The result record of `urllib.parse.urlsplit`. -/
structure SplitResult where
  scheme : String
  netloc : String
  path : String
  query : String
  fragment : String
deriving Repr, DecidableEq

/-- `scheme_chars` of `urllib.parse`. -/
def isSchemeChar (c : Char) : Bool :=
  ('a' ≤ c && c ≤ 'z') || ('A' ≤ c && c ≤ 'Z') || ('0' ≤ c && c ≤ '9') ||
  c = '+' || c = '-' || c = '.'

/-- WHATWG C0-control-or-space predicate used by `urlsplit`'s edge strip. -/
def isC0OrSpace (c : Char) : Bool :=
  c.toNat ≤ 32

/-- `urllib.parse.urlsplit` (current CPython): left-strip C0-controls and
spaces, drop tab/CR/LF, split off `scheme:` (ASCII-letter head, scheme
chars, lower-cased), `//netloc` (up to `/?#`), then fragment at the first
`#` and query at the first `?`. (The IPv6-bracket and netloc NFKC checks,
which raise for hosts not occurring here, are not modeled.) -/
def urlsplit (url : String) : SplitResult :=
  let cs0 := url.toList.dropWhile isC0OrSpace
  let cs := cs0.filter (fun c => c ≠ '\t' && c ≠ '\r' && c ≠ '\n')
  let head := cs.takeWhile (fun c => c ≠ ':')
  let hasColon := cs.contains ':'
  let schemeOk :=
    hasColon && head ≠ [] &&
    (match head with
     | c :: _ => (('a' ≤ c && c ≤ 'z') || ('A' ≤ c && c ≤ 'Z')) && head.all isSchemeChar
     | [] => false)
  let scheme := if schemeOk then String.mk (head.map charLower) else ""
  let rest0 := if schemeOk then (cs.dropWhile (fun c => c ≠ ':')).drop 1 else cs
  let hasNetloc := rest0.take 2 = ['/', '/']
  let netloc :=
    if hasNetloc then (rest0.drop 2).takeWhile (fun c => c ≠ '/' && c ≠ '?' && c ≠ '#')
    else []
  let rest1 :=
    if hasNetloc then (rest0.drop 2).dropWhile (fun c => c ≠ '/' && c ≠ '?' && c ≠ '#')
    else rest0
  let beforeFrag := rest1.takeWhile (fun c => c ≠ '#')
  let fragment := (rest1.dropWhile (fun c => c ≠ '#')).drop 1
  let path := beforeFrag.takeWhile (fun c => c ≠ '?')
  let query := (beforeFrag.dropWhile (fun c => c ≠ '?')).drop 1
  { scheme := scheme, netloc := String.mk netloc, path := String.mk path,
    query := String.mk query, fragment := String.mk fragment }

/-- `urllib.parse.urlunsplit`. -/
def urlunsplit (r : SplitResult) : String :=
  let url0 := r.path
  let url1 :=
    if r.netloc ≠ "" || (url0 ≠ "" && url0.toList.take 2 = ['/', '/']) then
      "//" ++ r.netloc ++
        (if url0 ≠ "" && url0.toList.head? ≠ some '/' then "/" ++ url0 else url0)
    else url0
  let url2 := if r.scheme ≠ "" then r.scheme ++ ":" ++ url1 else url1
  let url3 := if r.query ≠ "" then url2 ++ "?" ++ r.query else url2
  if r.fragment ≠ "" then url3 ++ "#" ++ r.fragment else url3

/-- The `safe` set `quote` is called with for the path component. -/
def pathSafe : String := "/:@&+$,;=-._~"

/-- The `safe` set for the query component. -/
def querySafe : String := "=/?&:+,;@-._~"

/-- The `safe` set for the fragment component. -/
def fragSafe : String := "-._~"

/-- src/feed_specs.py:130 (= src/pages/2_Feed_Fixer.py:25)
`percent_encode_url`. -/
def percent_encode_url (url : String) : String :=
  if url = "" then url
  else
    let parts := urlsplit url
    let path := pyQuote parts.path pathSafe
    let query := pyQuote parts.query querySafe
    let frag := pyQuote parts.fragment fragSafe
    urlunsplit { scheme := parts.scheme, netloc := parts.netloc,
                 path := path, query := query, fragment := frag }

/-! ### Price Normalizer
Modelled from the spec: the repository sources under src/ contain no Price
Normalizer implementation (spec §4.4 describes it as part of the core; only
the currency-presence warning of the fixer exists in code), so the two
functions below follow the spec's §4.4 wording. -/

/-- ASCII digit. -/
def isDig (c : Char) : Bool := '0' ≤ c && c ≤ '9'

/-- Comma or period, the candidate separators of §4.4(a). -/
def isSep (c : Char) : Bool := c = ',' || c = '.'

/-- Digit run to a natural number. -/
def digitsToNat (cs : List Char) : Nat :=
  cs.foldl (fun a c => a * 10 + (c.toNat - 48)) 0

/-- When both comma and period appear: the rightmost separator is the
decimal separator, all other separators are thousands separators to be
removed (spec §4.4(a)). -/
def normBothSeps (cs : List Char) : List Char :=
  let rev := cs.reverse
  let afterRev := rev.takeWhile (fun c => !isSep c)
  match rev.dropWhile (fun c => !isSep c) with
  | [] => cs
  | _ :: beforeRev =>
    (beforeRev.reverse.filter (fun c => !isSep c)) ++ '.' :: afterRev.reverse

/-- Plain decimal parse of a normalized digit string with at most one '.'
(anything else — e.g. a stray hyphen — fails, "return no value"). -/
def parseDecQ (cs : List Char) : Option ℚ :=
  let intPart := cs.takeWhile (fun c => c ≠ '.')
  match cs.dropWhile (fun c => c ≠ '.') with
  | [] =>
    if intPart ≠ [] && intPart.all isDig then some ((digitsToNat intPart : ℚ)) else none
  | _ :: fracPart =>
    if (intPart ≠ [] || fracPart ≠ []) && intPart.all isDig &&
       fracPart.all isDig && !fracPart.contains '.' then
      some ((digitsToNat intPart : ℚ) + (digitsToNat fracPart : ℚ) / ((10 : ℚ) ^ fracPart.length))
    else none

/-- Modelled from the spec (§4.4(a) numeric extraction, absent from src/):
strip non-breaking spaces; no digit ⇒ no value; strip a leading minus
remembering sign; keep only digits, comma, period, hyphen; disambiguate
separators (both present ⇒ rightmost is decimal; a single comma or single
period is a decimal separator, repeated ones are thousands separators);
parse as a plain decimal value. -/
def price_extract (s : String) : Option ℚ :=
  let t0 := s.toList.filter (fun c => c ≠ '\u00A0')
  if !(t0.any isDig) then none
  else
    let neg := t0.head? = some '-'
    let t1 := if neg then t0.drop 1 else t0
    let kept := t1.filter (fun c => isDig c || c = ',' || c = '.' || c = '-')
    let commas := kept.count ','
    let periods := kept.count '.'
    let norm :=
      if commas > 0 && periods > 0 then normBothSeps kept
      else if commas > 0 then
        (if commas = 1 then kept.map (fun c => if c = ',' then '.' else c)
         else kept.filter (fun c => c ≠ ','))
      else if periods > 0 then
        (if periods = 1 then kept else kept.filter (fun c => c ≠ '.'))
      else kept
    match parseDecQ norm with
    | none => none
    | some q => some (if neg then -q else q)

/-- Modelled from the spec (§4.4(b) strict format grammar, absent from
src/): accept a plain integer, space-grouped thousands (first group of 1–3
digits, then groups of exactly 3), or a comma/period decimal with a 1–2
digit decimal part; period-as-thousands shapes such as "8.000" are
rejected. -/
def strict_price_format_ok (s : String) : Bool :=
  let cs := s.toList
  let isInt := cs ≠ [] && cs.all isDig
  let groups := splitOnChar ' ' cs
  let isGrouped :=
    decide (groups.length ≥ 2) &&
    (match groups with
     | [] => false
     | g :: gs =>
       decide (1 ≤ g.length) && decide (g.length ≤ 3) && g.all isDig &&
       gs.all (fun h => decide (h.length = 3) && h.all isDig))
  let decShape (sep : Char) : Bool :=
    match splitOnChar sep cs with
    | [a, b] =>
      a ≠ [] && a.all isDig && (decide (b.length = 1) || decide (b.length = 2)) && b.all isDig
    | _ => false
  isInt || isGrouped || decShape ',' || decShape '.'

/-! ## Theorems for the claims -/

/-- C1: a byte input that is not well-formed XML (a raised `ParseError`)
makes `analyze_feed` return the distinct parse-failure outcome — severity
FAIL with a parse-error note, `detected` absent (in particular never
"Unrecognized") and zero items — while any successfully parsed document is
marked `xml_ok`, i.e. detection and per-item processing run only on parsed
documents. -/
theorem C1_parse_failure_distinct (msg : String) :
    (analyze_feed (.error msg)).severity = "FAIL" ∧
    (analyze_feed (.error msg)).notes = ["XML parse error: " ++ msg] ∧
    (analyze_feed (.error msg)).xml_ok = false ∧
    (analyze_feed (.error msg)).detected = none ∧
    (analyze_feed (.error msg)).detected ≠ some "Unrecognized" ∧
    (analyze_feed (.error msg)).items = 0 ∧
    (∀ root : Elem, (analyze_feed (.ok root)).xml_ok = true) := by
  refine ⟨rfl, rfl, rfl, rfl, by simp [analyze_feed, initOut], rfl, ?_⟩
  intro root
  simp only [analyze_feed]
  split
  · rfl
  · split
    · rfl
    · rfl

/-- C3: the spec-modelled numeric price extraction maps "8000" ↦ 8000,
"8 000" ↦ 8000, "8000,70" ↦ 8000.70, "8000.70" ↦ 8000.70,
"1.234,56" ↦ 1234.56 and "1,234.56" ↦ 1234.56 (rightmost of comma/period is
the decimal separator when both appear), while the strict format-grammar
check rejects "8.000" even though numeric extraction parses it (as 8, the
single period being a decimal separator). -/
theorem C3_price_extraction_vectors :
    price_extract "8000" = some 8000 ∧
    price_extract "8 000" = some 8000 ∧
    price_extract "8000,70" = some (8000.70 : ℚ) ∧
    price_extract "8000.70" = some (8000.70 : ℚ) ∧
    price_extract "1.234,56" = some (1234.56 : ℚ) ∧
    price_extract "1,234.56" = some (1234.56 : ℚ) ∧
    strict_price_format_ok "8.000" = false ∧
    (price_extract "8.000").isSome = true ∧
    strict_price_format_ok "8000" = true ∧
    strict_price_format_ok "8 000" = true ∧
    strict_price_format_ok "8000,70" = true ∧
    strict_price_format_ok "8000.70" = true := by
  have hInt : (digitsToNat ['8', '0', '0', '0'] : ℚ) = 8000 := by
    rw [show digitsToNat ['8', '0', '0', '0'] = 8000 from rfl]
    norm_num
  have hDec : price_extract "8000,70" = some (8000.70 : ℚ) := by
    rw [show price_extract "8000,70" =
        some ((digitsToNat ['8', '0', '0', '0'] : ℚ) +
          (digitsToNat ['7', '0'] : ℚ) / (10 : ℚ) ^ (['7', '0'].length)) from rfl]
    norm_num [show digitsToNat ['8', '0', '0', '0'] = 8000 from rfl,
      show digitsToNat ['7', '0'] = 70 from rfl]
  have hDec2 : price_extract "8000.70" = some (8000.70 : ℚ) := by
    rw [show price_extract "8000.70" =
        some ((digitsToNat ['8', '0', '0', '0'] : ℚ) +
          (digitsToNat ['7', '0'] : ℚ) / (10 : ℚ) ^ (['7', '0'].length)) from rfl]
    norm_num [show digitsToNat ['8', '0', '0', '0'] = 8000 from rfl,
      show digitsToNat ['7', '0'] = 70 from rfl]
  have hEu : price_extract "1.234,56" = some (1234.56 : ℚ) := by
    rw [show price_extract "1.234,56" =
        some ((digitsToNat ['1', '2', '3', '4'] : ℚ) +
          (digitsToNat ['5', '6'] : ℚ) / (10 : ℚ) ^ (['5', '6'].length)) from rfl]
    norm_num [show digitsToNat ['1', '2', '3', '4'] = 1234 from rfl,
      show digitsToNat ['5', '6'] = 56 from rfl]
  have hUs : price_extract "1,234.56" = some (1234.56 : ℚ) := by
    rw [show price_extract "1,234.56" =
        some ((digitsToNat ['1', '2', '3', '4'] : ℚ) +
          (digitsToNat ['5', '6'] : ℚ) / (10 : ℚ) ^ (['5', '6'].length)) from rfl]
    norm_num [show digitsToNat ['1', '2', '3', '4'] = 1234 from rfl,
      show digitsToNat ['5', '6'] = 56 from rfl]
  refine ⟨?_, ?_, hDec, hDec2, hEu, hUs, by decide, by decide,
    by decide, by decide, by decide, by decide⟩
  · rw [show price_extract "8000" = some ((digitsToNat ['8', '0', '0', '0'] : ℚ)) from rfl, hInt]
  · rw [show price_extract "8 000" = some ((digitsToNat ['8', '0', '0', '0'] : ℚ)) from rfl, hInt]

/-- C5: field reading is first-match-wins for all three readers —
`get_text` (GUI), `_first` (feed_specs) and `find_first_text` (fixer):
each returns the value of the first selector in list order that yields a
non-empty string (`List.find?` over the per-selector values) and
empty/absent when no selector yields one, so a later selector never
overrides an earlier non-empty match. -/
theorem C5_first_selector_wins (elem : Elem) (paths : List XPath) :
    get_text elem paths =
      (paths.map (fun p =>
        match findElem elem p with
        | some found => pyStrip found.text
        | none => "")).find? (fun s => s ≠ "") ∧
    _first elem paths =
      ((paths.map (fun p => _select_value elem p)).find? (fun s => s ≠ "")).getD "" ∧
    find_first_text elem paths =
      ((paths.map (fun p =>
        match findElem elem p with
        | some n => pyStrip n.text
        | none => "")).find? (fun s => s ≠ "")).getD "" := by
  induction paths with
  | nil => exact ⟨rfl, rfl, rfl⟩
  | cons p rest ih =>
    refine ⟨?_, ?_, ?_⟩
    · simp only [get_text, List.map_cons, List.find?_cons]
      cases hf : findElem elem p with
      | some found =>
        by_cases he : pyStrip found.text = ""
        · simp [he, ih.1]
        · simp [he]
      | none => simp [ih.1]
    · simp only [_first, List.map_cons, List.find?_cons]
      by_cases he : _select_value elem p = ""
      · simp [he, ih.2.1]
      · simp [he]
    · simp only [find_first_text, List.map_cons, List.find?_cons]
      cases hf : findElem elem p with
      | some found =>
        by_cases he : pyStrip found.text = ""
        · simp [he, ih.2.2]
        · simp [he]
      | none => simp [ih.2.2]

/-- Lookup in an insertion-ordered counter (assoc list). -/
def clookup (l : List (String × Nat)) (v : String) : Option Nat :=
  (l.find? (fun p => p.1 = v)).map (fun p => p.2)



lemma clookup_counterAdd (acc : List (String × Nat)) (x v : String) :
    clookup (counterAdd acc x) v =
      if x = v then some ((clookup acc v).getD 0 + 1) else clookup acc v := by
  induction acc with
  | nil =>
    by_cases h : x = v <;> simp [counterAdd, clookup, List.find?, h]
  | cons kc rest ih =>
    obtain ⟨k, c⟩ := kc
    by_cases hkx : k = x
    · subst hkx
      by_cases hkv : k = v
      · subst hkv
        simp [counterAdd, clookup, List.find?]
      · simp [counterAdd, clookup, List.find?, hkv]
    · by_cases hkv : k = v
      · subst hkv
        have hxv : ¬ (x = k) := fun h => hkx h.symm
        simp [counterAdd, if_neg hkx, clookup, List.find?, hxv]
      · simp only [counterAdd, if_neg hkx]
        simp only [clookup, List.find?] at ih ⊢
        simp [hkv, ih]

lemma counterAdd_fst (acc : List (String × Nat)) (x : String) :
    (counterAdd acc x).map Prod.fst =
      if (acc.map Prod.fst).contains x then acc.map Prod.fst
      else acc.map Prod.fst ++ [x] := by
  induction acc with
  | nil => simp [counterAdd]
  | cons kc rest ih =>
    obtain ⟨k, c⟩ := kc
    by_cases hkx : k = x
    · subst hkx
      simp [counterAdd]
    · have hxk : (x == k) = false := by
        simp [beq_iff_eq]
        exact fun h => hkx h.symm
      simp only [counterAdd, if_neg hkx, List.map_cons, List.contains_cons, hxk,
        Bool.false_or, ih]
      split <;> rfl

lemma counterAdd_keys_nodup (acc : List (String × Nat)) (x : String)
    (h : (acc.map Prod.fst).Nodup) : ((counterAdd acc x).map Prod.fst).Nodup := by
  rw [counterAdd_fst]
  split
  · exact h
  · next hc =>
    have hx : x ∉ acc.map Prod.fst := by
      intro hmem
      exact hc (List.elem_eq_true_of_mem hmem)
    simp [List.nodup_append, h, hx]

lemma counter_foldl_clookup (vals : List String) (acc : List (String × Nat)) (v : String) :
    clookup (vals.foldl counterAdd acc) v =
      if (clookup acc v).isSome || vals.contains v then
        some ((clookup acc v).getD 0 + vals.count v)
      else none := by
  induction vals generalizing acc with
  | nil =>
    simp only [List.foldl_nil, List.contains_eq_any_beq, List.any_nil, Bool.or_false]
    cases h : clookup acc v with
    | none => simp [h]
    | some c => simp [h]
  | cons w ws ih =>
    simp only [List.foldl_cons]
    rw [ih]
    by_cases hwv : w = v
    · subst hwv
      simp [clookup_counterAdd, List.count_cons, List.contains_cons]
      cases h : clookup acc w with
      | none => simp [h]; ring
      | some c => simp [h]; ring
    · have hvw : (v == w) = false := by
        simp [beq_iff_eq]; exact fun h => hwv h.symm
      simp [clookup_counterAdd, hwv, List.count_cons, hvw, List.contains_cons,
        show ¬ (v = w) from fun h => hwv h.symm]

lemma counter_keys_nodup (vals : List String) :
    ∀ acc : List (String × Nat), (acc.map Prod.fst).Nodup →
      ((vals.foldl counterAdd acc).map Prod.fst).Nodup := by
  induction vals with
  | nil => intro acc h; simpa using h
  | cons w ws ih =>
    intro acc h
    simp only [List.foldl_cons]
    exact ih _ (counterAdd_keys_nodup acc w h)

lemma clookup_eq_some_of_mem {l : List (String × Nat)} {v : String} {c : Nat}
    (hnd : (l.map Prod.fst).Nodup) (hm : (v, c) ∈ l) : clookup l v = some c := by
  induction l with
  | nil => simp at hm
  | cons kc rest ih =>
    obtain ⟨k, d⟩ := kc
    simp only [List.map_cons, List.nodup_cons] at hnd
    rcases List.mem_cons.mp hm with heq | hmem
    · have hk : k = v := (congrArg Prod.fst heq).symm
      have hc : d = c := (congrArg Prod.snd heq).symm
      subst hk; subst hc
      simp [clookup, List.find?]
    · have hkv : ¬ (k = v) := by
        intro h
        subst h
        exact hnd.1 (List.mem_map.mpr ⟨(k, c), hmem, rfl⟩)
      simp only [clookup, List.find?]
      simp [hkv]
      simpa [clookup] using ih hnd.2 hmem

lemma mem_of_clookup_eq_some {l : List (String × Nat)} {v : String} {c : Nat}
    (h : clookup l v = some c) : (v, c) ∈ l := by
  simp only [clookup, Option.map_eq_some'] at h
  obtain ⟨p, hp, hpc⟩ := h
  have hkey := List.find?_some hp
  have hpm := List.mem_of_find?_eq_some hp
  obtain ⟨p1, p2⟩ := p
  simp at hkey hpc
  rw [hkey, hpc] at hpm
  exact hpm

/-- C4 counterexample: `dup_map` aggregates duplicates into one
`(value, count)` entry, not one `(first_index, current_index, value)` record
per subsequent occurrence. The value "a" at positions 0, 2 and 4 has two
subsequent occurrences, yet `dup_map` emits the single record ("a", 3) —
and for a value at positions 2 and 5 the single emitted record is the pair
("idv", 2), carrying no index information. -/
theorem C4_dup_records_counterexample :
    dup_map ["a", "x", "a", "y", "a"] = [("a", 3)] ∧
    dup_map ["x0", "x1", "idv", "x3", "x4", "idv"] = [("idv", 2)] ∧
    dup_map ["", "x0", "", "x1", ""] = [] := by
  decide

/-- C4 (amended): `dup_map` tracks duplicates by value, not by index:
looking up `v` in its result yields the total occurrence count of `v`
exactly when `v` is non-empty and occurs at least twice (so a non-empty id
at positions 2 and 5 produces the single entry `(id_value, 2)`), and
empty/absent values are never tracked. -/
theorem C4_dup_map_amended (values : List String) (v : String) :
    clookup (dup_map values) v =
      if v ≠ "" ∧ 2 ≤ values.count v then some (values.count v) else none := by
  have hnd : ((counter (values.filter (fun x => x ≠ ""))).map Prod.fst).Nodup :=
    counter_keys_nodup _ [] (by simp)
  have hcl : clookup (counter (values.filter (fun x => x ≠ ""))) v =
      if (values.filter (fun x => x ≠ "")).contains v then
        some ((values.filter (fun x => x ≠ "")).count v)
      else none := by
    rw [show counter (values.filter (fun x => x ≠ "")) =
        (values.filter (fun x => x ≠ "")).foldl counterAdd [] from rfl,
      counter_foldl_clookup]
    simp [clookup]
  have hdupf : dup_map values =
      (counter (values.filter (fun x => x ≠ ""))).filter (fun kc => kc.2 > 1) := rfl
  by_cases hv : v = ""
  · subst hv
    have h0 : clookup (counter (values.filter (fun x => x ≠ ""))) "" = none := by
      rw [hcl]
      rw [if_neg]
      intro hc
      simp only [List.contains_eq_any_beq, List.any_eq_true] at hc
      obtain ⟨x, hx, hbeq⟩ := hc
      have hxne := (List.mem_filter.mp hx).2
      simp at hbeq hxne
      exact hxne hbeq.symm
    have h0' : (counter (values.filter (fun x => x ≠ ""))).find?
        (fun p => p.1 = "") = none := by
      have h := h0
      simp only [clookup, Option.map_eq_none'] at h
      exact h
    have hall : ∀ p ∈ counter (values.filter (fun x => x ≠ "")), ¬ (p.1 = "") := by
      intro p hp hkey
      have := List.find?_eq_none.mp h0' p hp
      simp at this
      exact this hkey
    have hnone : clookup (dup_map values) "" = none := by
      rw [hdupf]
      simp only [clookup, Option.map_eq_none']
      rw [List.find?_eq_none]
      intro p hp
      have hpc := (List.mem_filter.mp hp).1
      simp
      exact hall p hpc
    simp [hnone]
  · have hcnt : (values.filter (fun x => x ≠ "")).count v = values.count v := by
      rw [List.count_filter]
      simp [hv]
    by_cases h2 : 2 ≤ values.count v
    · have hvmem : v ∈ values.filter (fun x => x ≠ "") := by
        apply List.count_pos_iff.mp
        omega
      have hcont : (values.filter (fun x => x ≠ "")).contains v :=
        List.elem_eq_true_of_mem hvmem
      have hsome : clookup (counter (values.filter (fun x => x ≠ ""))) v =
          some (values.count v) := by
        rw [hcl, if_pos hcont, hcnt]
      have hmem := mem_of_clookup_eq_some hsome
      have hmemf : (v, values.count v) ∈ dup_map values := by
        rw [hdupf]
        exact List.mem_filter.mpr ⟨hmem, by simp; omega⟩
      have hndf : ((dup_map values).map Prod.fst).Nodup := by
        rw [hdupf]
        exact hnd.sublist ((List.filter_sublist _).map Prod.fst)
      rw [clookup_eq_some_of_mem hndf hmemf, if_pos ⟨hv, h2⟩]
    · have hnone : clookup (dup_map values) v = none := by
        cases hc : clookup (dup_map values) v with
        | none => rfl
        | some c =>
          exfalso
          have hmemf := mem_of_clookup_eq_some hc
          rw [hdupf] at hmemf
          obtain ⟨hmem, hgt⟩ := List.mem_filter.mp hmemf
          have hlk : clookup (counter (values.filter (fun x => x ≠ ""))) v = some c :=
            clookup_eq_some_of_mem hnd hmem
          rw [hcl] at hlk
          split at hlk
          · rw [hcnt] at hlk
            have hcc : values.count v = c := Option.some.inj hlk
            simp at hgt
            omega
          · exact Option.noConfusion hlk
      rw [hnone, if_neg]
      intro hh
      exact h2 hh.2

/-- C8: availability derivation is a last resort. (1) For every item and
spec name, when the spec's availability selectors yield a non-empty value,
`read_availability` returns exactly that value, so the derivation rule is
not applied. (2) In the fixer's HEUREKA extraction (whose availability
selector list is empty, so no selector ever yields a value), an item whose
DELIVERY_DATE is a digit string below 3 gets availability "in stock". -/
theorem C8_availability_last_resort :
    (∀ (it : Elem) (spec_name : String),
        _first it (availability_paths_of spec_name) ≠ "" →
        read_availability it spec_name = _first it (availability_paths_of spec_name)) ∧
    (∀ it : Elem,
        find_first_text it heureka_fixer_availability_paths = "" →
        isDigitStr (pyStrip (find_first_text it heureka_fixer_availability_hint_paths)) = true →
        strToNat (pyStrip (find_first_text it heureka_fixer_availability_hint_paths)) < 3 →
        fixer_heureka_availability it = "in stock") := by
  constructor
  · intro it name h
    by_cases hp : availability_paths_of name = []
    · rw [hp] at h
      exact absurd rfl h
    · simp only [read_availability]
      rw [if_pos hp, if_pos h]
  · intro it _ h2 h3
    have hne : find_first_text it heureka_fixer_availability_hint_paths ≠ "" := by
      intro he
      rw [he] at h2
      exact absurd h2 (by decide)
    simp only [fixer_heureka_availability]
    rw [if_neg (by simp [heureka_fixer_availability_paths, find_first_text])]
    rw [if_pos (by
      simp only [Bool.and_eq_true, decide_eq_true_eq]
      exact ⟨⟨hne, h2⟩, h3⟩)]

/-- An item whose availability selector yields a value. -/
def availabilitySampleItem : Elem :=
  ⟨"product", [], "", [⟨"availability", [], "in stock", []⟩]⟩

/-- A Heureka item carrying only a DELIVERY_DATE of 2. -/
def heurekaHintSampleItem : Elem :=
  ⟨"SHOPITEM", [], "", [⟨"DELIVERY_DATE", [], "2", []⟩]⟩

/-- C8 witness: on a concrete item with an availability child,
`read_availability` under "Skroutz strict" returns the selector value; on a
concrete Heureka item with DELIVERY_DATE 2 and no availability value, the
fixer derives "in stock". -/
theorem C8_availability_last_resort_witness :
    read_availability availabilitySampleItem "Skroutz strict" = "in stock" ∧
    fixer_heureka_availability heurekaHintSampleItem = "in stock" := by
  constructor
  · have h := C8_availability_last_resort.1 availabilitySampleItem "Skroutz strict"
      (by decide)
    rw [h]
    decide
  · exact C8_availability_last_resort.2 heurekaHintSampleItem (by decide)
      (by decide) (by decide)

lemma toList_append (s t : String) : (s ++ t).toList = s.toList ++ t.toList := rfl

lemma isInfix_append_left {l t : List Char} (s : List Char) (h : l <:+: t) :
    l <:+: s ++ t := by
  obtain ⟨u, v, huv⟩ := h
  exact ⟨s ++ u, v, by rw [← huv]; simp⟩

lemma isInfix_append_right {l t : List Char} (s : List Char) (h : l <:+: t) :
    l <:+: t ++ s := by
  obtain ⟨u, v, huv⟩ := h
  exact ⟨u, v ++ s, by rw [← huv]; simp⟩

lemma char_toNat_lt (c : Char) : c.toNat < 1114112 := by
  rcases c.valid with h | ⟨_, h2⟩
  · have h1 : c.val.toNat < 55296 := h
    simp only [Char.toNat]
    omega
  · have h1 : c.val.toNat < 1114112 := h2
    simp only [Char.toNat]
    omega

lemma utf8EncodeChar_lt_256 (c : Char) : ∀ b ∈ utf8EncodeChar c, b < 256 := by
  have hc := char_toNat_lt c
  simp only [utf8EncodeChar]
  split_ifs with h1 h2 h3 <;> intro b hb <;> fin_cases hb <;> omega

lemma utf8Bytes_lt_256 (s : String) : ∀ b ∈ utf8Bytes s, b < 256 := by
  intro b hb
  simp only [utf8Bytes, List.mem_flatMap] at hb
  obtain ⟨c, _, hc⟩ := hb
  exact utf8EncodeChar_lt_256 c b hc

lemma pyQuote_clean (s : String) (safe : String)
    (hsafe : ((List.range 256).all (fun b =>
      (quoteByte ((safe.toList.map Char.toNat).filter (fun b => b < 128)) b).all
        (fun c => !(c == ' ') && c.toNat ≤ 127))) = true) :
    ∀ c ∈ (pyQuote s safe).toList, ¬(c = ' ' ∨ 127 < c.toNat) := by
  intro c hc
  have hc' : c ∈ (utf8Bytes s).flatMap
      (quoteByte ((safe.toList.map Char.toNat).filter (fun b => b < 128))) := hc
  simp only [List.mem_flatMap] at hc'
  obtain ⟨b, hb, hcb⟩ := hc'
  have hblt := utf8Bytes_lt_256 s b hb
  have h1 := List.all_eq_true.mp hsafe b (List.mem_range.mpr hblt)
  have h2 := List.all_eq_true.mp h1 c hcb
  simp only [Bool.and_eq_true, Bool.not_eq_true', beq_eq_false_iff_ne, ne_eq,
    decide_eq_true_eq] at h2
  intro hor
  rcases hor with hsp | hna
  · exact h2.1 hsp
  · omega

lemma urlunsplit_path_infix (r : SplitResult) :
    r.path.toList <:+: (urlunsplit r).toList := by
  simp only [urlunsplit]
  split_ifs <;> (try simp only [toList_append, List.append_assoc]) <;>
    repeat (first
      | exact List.infix_refl _
      | exact (List.prefix_append _ _).isInfix
      | apply isInfix_append_left)

lemma quote_encodes_percent (s : String) (safe : String)
    (hsafe : (((safe.toList.map Char.toNat).filter (fun b => b < 128)).contains 37) = false)
    (h : '%' ∈ s.toList) :
    ['%', '2', '5'] <:+: (pyQuote s safe).toList := by
  have h37 : (37 : Nat) ∈ utf8Bytes s := by
    simp only [utf8Bytes, List.mem_flatMap]
    exact ⟨'%', h, by decide⟩
  have key : ∀ bs : List Nat, 37 ∈ bs →
      ['%', '2', '5'] <:+:
        bs.flatMap (quoteByte ((safe.toList.map Char.toNat).filter (fun b => b < 128))) := by
    intro bs hbs
    induction bs with
    | nil => simp at hbs
    | cons b t ih =>
      simp only [List.flatMap_cons]
      rcases List.mem_cons.mp hbs with hb | hmem
      · subst hb
        have hq : quoteByte ((safe.toList.map Char.toNat).filter (fun b => b < 128)) 37 =
            ['%', '2', '5'] := by
          simp only [quoteByte, hsafe]
          norm_num [alwaysSafeByte, hexDigitU]
        rw [hq]
        exact isInfix_append_right _ (List.infix_refl _)
      · exact isInfix_append_left _ (ih hmem)
  exact key _ h37

set_option maxHeartbeats 2000000 in
lemma urlunsplit_chars (r : SplitResult) :
    ∀ c ∈ (urlunsplit r).toList,
      c ∈ r.scheme.toList ∨ c ∈ r.netloc.toList ∨ c ∈ r.path.toList ∨
      c ∈ r.query.toList ∨ c ∈ r.fragment.toList ∨ c = '/' ∨ c = ':' ∨
      c = '?' ∨ c = '#' := by
  simp only [urlunsplit]
  split_ifs <;> intro c hc <;>
    (try simp only [toList_append, List.mem_append,
      show ("//" : String).toList = ['/', '/'] from rfl,
      show ("/" : String).toList = ['/'] from rfl,
      show (":" : String).toList = [':'] from rfl,
      show ("?" : String).toList = ['?'] from rfl,
      show ("#" : String).toList = ['#'] from rfl,
      List.mem_cons, List.not_mem_nil, or_false] at hc) <;>
    tauto

set_option maxHeartbeats 4000000 in
/-- C7 counterexample: percent_encode_url does not preserve an existing
valid percent-sequence — the "%20" in the path of
"http://e.com/a%20b" is double-encoded to "%2520", changing the URL. -/
theorem C7_double_encoding_counterexample :
    percent_encode_url "http://e.com/a%20b" = "http://e.com/a%2520b" ∧
    percent_encode_url "http://e.com/a%20b" ≠ "http://e.com/a%20b" := by
  constructor
  · decide
  · decide

/-- C7 (amended): percent_encode_url percent-encodes spaces and non-ASCII
characters of the path/query/fragment but does not preserve existing
percent-sequences: any '%' in the path is itself encoded, so the encoded
form contains "%25" wherever the raw path contained '%'. -/
theorem C7_percent_not_preserved (u : String)
    (h : '%' ∈ (urlsplit u).path.toList) :
    ['%', '2', '5'] <:+: (percent_encode_url u).toList := by
  by_cases hu : u = ""
  · subst hu
    exact absurd h (by decide)
  · have hsafe : (((pathSafe.toList.map Char.toNat).filter (fun b => b < 128)).contains 37)
        = false := by decide
    have h1 := quote_encodes_percent (urlsplit u).path pathSafe hsafe h
    have h2 := urlunsplit_path_infix
      { scheme := (urlsplit u).scheme, netloc := (urlsplit u).netloc,
        path := pyQuote (urlsplit u).path pathSafe,
        query := pyQuote (urlsplit u).query querySafe,
        fragment := pyQuote (urlsplit u).fragment fragSafe }
    simp only [percent_encode_url, if_neg hu]
    exact h1.trans h2

/-- C7 witness: the amended theorem applied at "http://e.com/a%20b". -/
theorem C7_percent_not_preserved_witness :
    '%' ∈ (urlsplit "http://e.com/a%20b").path.toList ∧
    ['%', '2', '5'] <:+: (percent_encode_url "http://e.com/a%20b").toList :=
  ⟨by decide, C7_percent_not_preserved _ (by decide)⟩



/-- C6 counterexample: a URL with a literal space in the host is flagged by
the malformed-URL check, but percent_encode_url leaves the netloc
untouched, so the encoded form equals the raw form and is flagged again —
contradicting the claim that the encoded form of every flagged value
contains no space and no non-ASCII character. -/
theorem C6_host_space_counterexample :
    (find_url_issues ["http://exam ple.com/a"]).spaces = ["http://exam ple.com/a"] ∧
    percent_encode_url "http://exam ple.com/a" = "http://exam ple.com/a" ∧
    (find_url_issues [percent_encode_url "http://exam ple.com/a"]).spaces =
      ["http://exam ple.com/a"] := by
  refine ⟨by decide, by decide, by decide⟩

set_option maxRecDepth 4000 in
lemma path_quoteByte_clean :
    ((List.range 256).all (fun b =>
      (quoteByte ((pathSafe.toList.map Char.toNat).filter (fun b => b < 128)) b).all
        (fun c => !(c == ' ') && c.toNat ≤ 127))) = true := by decide

set_option maxRecDepth 4000 in
lemma query_quoteByte_clean :
    ((List.range 256).all (fun b =>
      (quoteByte ((querySafe.toList.map Char.toNat).filter (fun b => b < 128)) b).all
        (fun c => !(c == ' ') && c.toNat ≤ 127))) = true := by decide

set_option maxRecDepth 4000 in
lemma frag_quoteByte_clean :
    ((List.range 256).all (fun b =>
      (quoteByte ((fragSafe.toList.map Char.toNat).filter (fun b => b < 128)) b).all
        (fun c => !(c == ' ') && c.toNat ≤ 127))) = true := by decide

/-- C6 (amended): (a) the malformed-URL check flags a non-empty raw value
iff it contains a literal space (resp. a character above 0x7F); (b) when
the space/non-ASCII characters do not lie in the scheme or netloc — the
components quote never touches — the percent-encoded form contains neither
a space nor a non-ASCII character, and is therefore not re-flagged by the
same check. -/
theorem C6_url_flagging (u : String) :
    (u ≠ "" →
      (((find_url_issues [u]).spaces ≠ []) ↔ ' ' ∈ u.toList) ∧
      (((find_url_issues [u]).non_ascii ≠ []) ↔ ∃ c ∈ u.toList, 127 < c.toNat)) ∧
    ((∀ c ∈ (urlsplit u).scheme.toList, ¬(c = ' ' ∨ 127 < c.toNat)) →
     (∀ c ∈ (urlsplit u).netloc.toList, ¬(c = ' ' ∨ 127 < c.toNat)) →
      (∀ c ∈ (percent_encode_url u).toList, ¬(c = ' ' ∨ 127 < c.toNat)) ∧
      (find_url_issues [percent_encode_url u]).spaces = [] ∧
      (find_url_issues [percent_encode_url u]).non_ascii = []) := by
  constructor
  · intro hu
    constructor
    · simp only [find_url_issues, List.filter_cons, List.filter_nil]
      by_cases hc : u.toList.contains ' ' <;> simp [hu, hc]
    · simp only [find_url_issues, List.filter_cons, List.filter_nil]
      by_cases hc : u.toList.any (fun ch => ch.toNat > 127) <;> simp [hu, hc]
  · intro hs hn
    have hclean : ∀ c ∈ (percent_encode_url u).toList, ¬(c = ' ' ∨ 127 < c.toNat) := by
      by_cases hu : u = ""
      · subst hu
        intro c hc
        rw [show percent_encode_url "" = "" from rfl] at hc
        exact absurd hc (by simp)
      · simp only [percent_encode_url, if_neg hu]
        intro c hc
        rcases urlunsplit_chars _ c hc with h | h | h | h | h | h | h | h | h
        · exact hs c h
        · exact hn c h
        · exact pyQuote_clean _ pathSafe path_quoteByte_clean c h
        · exact pyQuote_clean _ querySafe query_quoteByte_clean c h
        · exact pyQuote_clean _ fragSafe frag_quoteByte_clean c h
        · subst h; decide
        · subst h; decide
        · subst h; decide
        · subst h; decide
    refine ⟨hclean, ?_, ?_⟩
    · simp only [find_url_issues, List.filter_cons, List.filter_nil]
      have hcf : (percent_encode_url u).toList.contains ' ' = false := by
        by_contra hcc
        simp only [Bool.not_eq_false] at hcc
        exact hclean ' ' (List.mem_of_elem_eq_true hcc) (Or.inl rfl)
      simp [hcf]
      exact fun _ hmem => hclean ' ' hmem (Or.inl rfl)
    · simp only [find_url_issues, List.filter_cons, List.filter_nil]
      have hcf : (percent_encode_url u).toList.any (fun ch => ch.toNat > 127) = false := by
        by_contra hcc
        simp only [Bool.not_eq_false] at hcc
        obtain ⟨c, hcm, hcg⟩ := List.any_eq_true.mp hcc
        exact hclean c hcm (Or.inr (by simpa using hcg))
      simp [hcf]
      exact fun _ x hx => Nat.not_lt.mp (fun hgt => hclean x hx (Or.inr hgt))

/-- C6 witness: the amended theorem applied at "http://e.com/a b", whose
space lies in the path: the raw value is flagged, its encoding is clean. -/
theorem C6_url_flagging_witness :
    ((((find_url_issues ["http://e.com/a b"]).spaces ≠ []) ↔
        ' ' ∈ "http://e.com/a b".toList) ∧
     (find_url_issues [percent_encode_url "http://e.com/a b"]).spaces = [] ∧
     (find_url_issues [percent_encode_url "http://e.com/a b"]).non_ascii = []) := by
  refine ⟨((C6_url_flagging "http://e.com/a b").1 (by decide)).1, ?_, ?_⟩
  · exact ((C6_url_flagging "http://e.com/a b").2 (by decide) (by decide)).2.1
  · exact ((C6_url_flagging "http://e.com/a b").2 (by decide) (by decide)).2.2


lemma iterAll_eq (r : Elem) : r.iterAll = r :: iterAllList r.children := by
  cases r
  rfl

lemma self_mem_iterAll (r : Elem) : r ∈ r.iterAll := by
  rw [iterAll_eq]
  exact List.mem_cons_self _ _

lemma mem_iterAllList_iff (cs : List Elem) (e : Elem) :
    e ∈ iterAllList cs ↔ ∃ c ∈ cs, e ∈ c.iterAll := by
  induction cs with
  | nil => simp [iterAllList]
  | cons c t ih => simp [iterAllList, List.mem_append, ih]

theorem mem_iterAll_trans : (r : Elem) → ∀ e ∈ r.iterAll, ∀ c ∈ e.children, c ∈ r.iterAll
  | .mk t a x cs => fun e he c hc => by
    rw [iterAll_eq] at he
    rcases List.mem_cons.mp he with heq | hmem
    · subst heq
      rw [iterAll_eq]
      refine List.mem_cons_of_mem _ ?_
      rw [mem_iterAllList_iff]
      exact ⟨c, hc, self_mem_iterAll c⟩
    · rw [mem_iterAllList_iff] at hmem
      obtain ⟨c0, hc0, he0⟩ := hmem
      have hrec := mem_iterAll_trans c0 e he0 c hc
      rw [iterAll_eq]
      refine List.mem_cons_of_mem _ ?_
      rw [mem_iterAllList_iff]
      exact ⟨c0, hc0, hrec⟩
termination_by r => sizeOf r
decreasing_by
  simp_wf
  have h1 := List.sizeOf_lt_of_mem hc0
  simp at h1 ⊢
  omega

lemma mem_findElems_descendant {root : Elem} {t : String} {e : Elem}
    (h : e ∈ findElems root (.descendant t)) : e ∈ root.iterAll ∧ e.tag = t := by
  simp only [findElems, List.mem_filter, decide_eq_true_eq] at h
  refine ⟨?_, h.2⟩
  rw [iterAll_eq]
  exact List.mem_cons_of_mem _ h.1

lemma findElem_descendant_none {root : Elem} {t : String}
    (h : ∀ e ∈ root.iterAll, asciiLower (strip_ns e.tag) ≠ asciiLower (strip_ns t)) :
    findElem root (.descendant t) = none := by
  unfold findElem
  cases hfe : findElems root (.descendant t) with
  | nil => rfl
  | cons e rest =>
    exfalso
    have hm := mem_findElems_descendant (hfe ▸ List.mem_cons_self e rest)
    exact h e hm.1 (by rw [hm.2])

lemma any_local_false {root : Elem} {loc : String}
    (h : ∀ e ∈ root.iterAll, asciiLower (strip_ns e.tag) ≠ loc) :
    root.iterAll.any (fun e => asciiLower (strip_ns e.tag) = loc) = false := by
  rw [List.any_eq_false]
  intro e he
  simp only [decide_eq_true_eq]
  exact h e he

lemma exists_local_false {root : Elem} {loc : String}
    (h : ∀ e ∈ root.iterAll, asciiLower (strip_ns e.tag) ≠ asciiLower loc) :
    _exists_local root loc = false := by
  unfold _exists_local
  rw [List.any_eq_false]
  intro e he
  simp only [decide_eq_true_eq]
  exact h e he

lemma detect_google_rss_of_root {root : Elem}
    (h : asciiLower (strip_ns root.tag) ≠ "rss") : detect_google_rss root = false := by
  simp [detect_google_rss, h]

lemma detect_google_atom_of_root {root : Elem}
    (h : asciiLower (strip_ns root.tag) ≠ "feed") : detect_google_atom root = false := by
  simp [detect_google_atom, h]

/-- A document whose items container is a lowercase `shopitem`. -/
def lowercaseShopitemDoc : Elem :=
  ⟨"shop", [], "", [⟨"shopitem", [], "", []⟩]⟩

/-- C10 counterexample: the two detection implementations disagree — on a
`<shop>` document with a lowercase `<shopitem>`, the GUI strict chain
recognizes nothing (Unrecognized) while `detect_spec`'s case-insensitive
fallback classifies "Heureka strict"; so they neither classify identically
nor return their unknown values together. -/
theorem C10_detectors_diverge_counterexample :
    detected_spec_name lowercaseShopitemDoc = none ∧
    detect_spec lowercaseShopitemDoc = "Heureka strict" ∧
    detect_spec lowercaseShopitemDoc ≠ "UNKNOWN" := by
  refine ⟨by decide, by decide, by decide⟩

/-- C10 (amended): on canonical exact-case documents the two
implementations agree — a document containing a `SHOPITEM` element, no
entry/item elements (any case), and whose root is not rss/feed classifies
as "Heureka strict" under both the GUI chain and `detect_spec`. -/
theorem C10_detectors_agree_on_heureka (root : Elem)
    (hshop : (findElem root (.descendant "SHOPITEM")).isSome = true)
    (hnoentry : ∀ e ∈ root.iterAll, asciiLower (strip_ns e.tag) ≠ "entry")
    (hnoitem : ∀ e ∈ root.iterAll, asciiLower (strip_ns e.tag) ≠ "item")
    (hrss : asciiLower (strip_ns root.tag) ≠ "rss")
    (hfeed : asciiLower (strip_ns root.tag) ≠ "feed") :
    detected_spec_name root = some "Heureka strict" ∧
    detect_spec root = "Heureka strict" := by
  have h1 := detect_google_rss_of_root hrss
  have h2 := detect_google_atom_of_root hfeed
  have h3 : detect_heureka root = true := by
    simpa [detect_heureka] using hshop
  constructor
  · simp only [detected_spec_name, SPECS]
    rw [List.find?_cons_of_neg _ (by simp [h1]),
      List.find?_cons_of_neg _ (by simp [h2]),
      List.find?_cons_of_pos _ (by simp [h3])]
    rfl
  · have hae : root.iterAll.any (fun e => asciiLower (strip_ns e.tag) = "entry") = false :=
      any_local_false hnoentry
    have hitem : findElem root (.descendant "item") = none := by
      refine findElem_descendant_none ?_
      intro e he
      rw [show asciiLower (strip_ns "item") = "item" from rfl]
      exact hnoitem e he
    have hlooks : _looks_like_google_without_ns root = false := by
      unfold _looks_like_google_without_ns
      by_cases hg : tostring_contains root gFrag
      · simp [hg]
      · simp [hg, hrss]
    simp [detect_spec, hae, hlooks, _exists, hitem, hshop]

/-- A canonical exact-case Heureka document. -/
def heurekaDocSample : Elem :=
  ⟨"SHOP", [], "", [⟨"SHOPITEM", [], "", [⟨"ITEM_ID", [], "1", []⟩]⟩]⟩

/-- C10 witness: the agreement theorem applied to a concrete exact-case
Heureka document. -/
theorem C10_detectors_agree_on_heureka_witness :
    detected_spec_name heurekaDocSample = some "Heureka strict" ∧
    detect_spec heurekaDocSample = "Heureka strict" := by
  refine ⟨?_, ?_⟩
  · exact (C10_detectors_agree_on_heureka heurekaDocSample (by decide) (by decide)
      (by decide) (by decide) (by decide)).1
  · exact (C10_detectors_agree_on_heureka heurekaDocSample (by decide) (by decide)
      (by decide) (by decide) (by decide)).2

/-- A `<products>` document whose first product carries the Compari field
set and whose second product carries price_with_vat, image and link. -/
def mixedProductDoc : Elem :=
  ⟨"products", [], "", [
    ⟨"product", [], "", [⟨"identifier", [], "1", []⟩, ⟨"name", [], "n", []⟩,
      ⟨"product_url", [], "u", []⟩, ⟨"price", [], "5", []⟩,
      ⟨"image_url", [], "i", []⟩]⟩,
    ⟨"product", [], "", [⟨"price_with_vat", [], "6", []⟩, ⟨"image", [], "i", []⟩,
      ⟨"link", [], "l", []⟩]⟩]⟩

/-- C2 counterexample: a document in which some `<product>` carries a
price_with_vat child classifies as Compari, not Skroutz, under both
implementations — the GUI chain checks Compari's field set first, and
`detect_spec` samples only the first product. -/
theorem C2_price_with_vat_counterexample :
    (findElems mixedProductDoc (.descendant "product")).any
      (fun p => p.children.any
        (fun c => asciiLower (strip_ns c.tag) = "price_with_vat")) = true ∧
    detected_spec_name mixedProductDoc =
      some "Compari / Árukereső / Pazaruvaj (case-insensitive)" ∧
    detect_spec mixedProductDoc = "Compari / Árukereső / Pazaruvaj (case-insensitive)" ∧
    detected_spec_name mixedProductDoc ≠ some "Skroutz strict" ∧
    detect_spec mixedProductDoc ≠ "Skroutz strict" := by
  refine ⟨by decide, by decide, by decide, by decide, by decide⟩

lemma compari_products_ne {root : Elem} (h : detect_compari_ci root = true) :
    findElems root (.descendant "product") ≠ [] := by
  intro he
  rw [detect_compari_ci, he] at h
  simp at h

lemma resolveSegs_single (s : Elem) (t : String) :
    findElems s (.child [t]) = s.children.filter (fun c => c.tag = t) := by
  simp [findElems, resolveSegs, childrenWithTag]

lemma no_pwv_check_false {root s : Elem}
    (hEx : ∀ e ∈ root.iterAll, asciiLower (strip_ns e.tag) ≠ "price_with_vat")
    (hs : s ∈ root.iterAll) :
    ((findElem s (.child ["price_with_vat"])).isSome ||
      s.children.any (fun c => asciiLower (strip_ns c.tag) = "price_with_vat")) = false := by
  have hchild : ∀ c ∈ s.children, asciiLower (strip_ns c.tag) ≠ "price_with_vat" :=
    fun c hc => hEx c (mem_iterAll_trans root s hs c hc)
  have hfe : findElem s (.child ["price_with_vat"]) = none := by
    unfold findElem
    rw [resolveSegs_single]
    rw [List.filter_eq_nil_iff.mpr]
    · rfl
    · intro c hc
      simp only [decide_eq_true_eq]
      intro ht
      exact hchild c hc (by rw [ht]; decide)
  rw [hfe]
  simp only [Option.isSome_none, Bool.false_or]
  rw [List.any_eq_false]
  intro c hc
  simp only [decide_eq_true_eq]
  exact hchild c hc

lemma gui_find_product_stage {root : Elem}
    (hEx : ∀ e ∈ root.iterAll,
      asciiLower (strip_ns e.tag) ∉ (["entry", "item", "shopitem", "o"] : List String))
    (hrss : asciiLower (strip_ns root.tag) ≠ "rss")
    (hfeed : asciiLower (strip_ns root.tag) ≠ "feed") :
    detected_spec_name root =
      (if detect_compari_ci root then
        some "Compari / Árukereső / Pazaruvaj (case-insensitive)"
      else if detect_skroutz_strict root then some "Skroutz strict" else none) := by
  have hng : ∀ loc ∈ (["entry", "item", "shopitem", "o"] : List String),
      ∀ e ∈ root.iterAll, asciiLower (strip_ns e.tag) ≠ loc :=
    fun loc hl e he hl2 => hEx e he (hl2 ▸ hl)
  have h1 := detect_google_rss_of_root hrss
  have h2 := detect_google_atom_of_root hfeed
  have h3 : detect_heureka root = false := by
    simp only [detect_heureka]
    rw [findElem_descendant_none (fun e he => by
      rw [show asciiLower (strip_ns "SHOPITEM") = "shopitem" from rfl]
      exact hng "shopitem" (by simp) e he)]
    rfl
  have h6 : detect_ceneje root = false := by
    simp only [detect_ceneje]
    rw [findElem_descendant_none (fun e he => by
        rw [show asciiLower (strip_ns "Item") = "item" from rfl]
        exact hng "item" (by simp) e he),
      findElem_descendant_none (fun e he => by
        rw [show asciiLower (strip_ns "item") = "item" from rfl]
        exact hng "item" (by simp) e he)]
    rfl
  have h7 : detect_ceneo root = false := by
    simp only [detect_ceneo]
    rw [findElem_descendant_none (fun e he => by
      rw [show asciiLower (strip_ns "o") = "o" from rfl]
      exact hng "o" (by simp) e he)]
    rfl
  simp only [detected_spec_name, SPECS]
  rw [List.find?_cons_of_neg _ (by simp [h1]),
    List.find?_cons_of_neg _ (by simp [h2]),
    List.find?_cons_of_neg _ (by simp [h3])]
  by_cases hcp : detect_compari_ci root = true
  · rw [List.find?_cons_of_pos _ (by simp [hcp])]
    simp [hcp]
  · rw [List.find?_cons_of_neg _ (by simp [hcp])]
    by_cases hsk : detect_skroutz_strict root = true
    · rw [List.find?_cons_of_pos _ (by simp [hsk])]
      simp [hcp, hsk]
    · rw [List.find?_cons_of_neg _ (by simp [hsk]),
        List.find?_cons_of_neg _ (by simp [h6]),
        List.find?_cons_of_neg _ (by simp [h7])]
      simp [hcp, hsk, List.find?]

lemma detect_spec_product_stage {root : Elem}
    (hEx : ∀ e ∈ root.iterAll,
      asciiLower (strip_ns e.tag) ∉ (["entry", "item", "shopitem", "o"] : List String))
    (hrss : asciiLower (strip_ns root.tag) ≠ "rss")
    (hprod : findElems root (.descendant "product") ≠ []) :
    detect_spec root =
      (match (match findElem root (.descendant "product") with
              | some p => if p.children.isEmpty then _first_local root "product" else some p
              | none => _first_local root "product") with
       | none => "Compari / Árukereső / Pazaruvaj (case-insensitive)"
       | some s =>
         if (findElem s (.child ["price_with_vat"])).isSome ||
             s.children.any (fun c => asciiLower (strip_ns c.tag) = "price_with_vat") then
           "Skroutz strict"
         else "Compari / Árukereső / Pazaruvaj (case-insensitive)") := by
  have hng : ∀ loc ∈ (["entry", "item", "shopitem", "o"] : List String),
      ∀ e ∈ root.iterAll, asciiLower (strip_ns e.tag) ≠ loc :=
    fun loc hl e he hl2 => hEx e he (hl2 ▸ hl)
  have hae : root.iterAll.any (fun e => asciiLower (strip_ns e.tag) = "entry") = false :=
    any_local_false (hng "entry" (by simp))
  have hitem : findElem root (.descendant "item") = none :=
    findElem_descendant_none (fun e he => by
      rw [show asciiLower (strip_ns "item") = "item" from rfl]
      exact hng "item" (by simp) e he)
  have hItem : findElem root (.descendant "Item") = none :=
    findElem_descendant_none (fun e he => by
      rw [show asciiLower (strip_ns "Item") = "item" from rfl]
      exact hng "item" (by simp) e he)
  have hshop : findElem root (.descendant "SHOPITEM") = none :=
    findElem_descendant_none (fun e he => by
      rw [show asciiLower (strip_ns "SHOPITEM") = "shopitem" from rfl]
      exact hng "shopitem" (by simp) e he)
  have ho : findElem root (.descendant "o") = none :=
    findElem_descendant_none (fun e he => by
      rw [show asciiLower (strip_ns "o") = "o" from rfl]
      exact hng "o" (by simp) e he)
  have hxshop : _exists_local root "shopitem" = false :=
    exists_local_false (fun e he => by
      rw [show asciiLower "shopitem" = "shopitem" from rfl]
      exact hng "shopitem" (by simp) e he)
  have hxo : _exists_local root "o" = false :=
    exists_local_false (fun e he => by
      rw [show asciiLower "o" = "o" from rfl]
      exact hng "o" (by simp) e he)
  have hxitem : _exists_local root "item" = false :=
    exists_local_false (fun e he => by
      rw [show asciiLower "item" = "item" from rfl]
      exact hng "item" (by simp) e he)
  have hlooks : _looks_like_google_without_ns root = false := by
    unfold _looks_like_google_without_ns
    by_cases hg : tostring_contains root gFrag
    · simp [hg]
    · simp [hg, hrss]
  have hpcond : (findElem root (.descendant "product")).isSome = true := by
    unfold findElem
    cases hp : findElems root (.descendant "product") with
    | nil => exact absurd hp hprod
    | cons p rest => rfl
  simp [detect_spec, hae, hlooks, _exists, hitem, hItem, hshop, ho,
    hxshop, hxo, hxitem, hpcond]

/-- C2 (amended): for documents whose only item containers are `<product>`
elements (no entry/item/shopitem/o elements, root not rss/feed),
disambiguation is by the price_with_vat field on the product each detector
actually consults. (a) A document carrying a product with the Compari field
set and no price_with_vat anywhere classifies as Compari, never Skroutz,
under both implementations. (b) A document with products, none carrying
the Compari identifier fields, every product carrying price_with_vat,
image and link, classifies as Skroutz under both implementations. -/
theorem C2_product_disambiguation :
    (∀ root : Elem,
      (∀ e ∈ root.iterAll, asciiLower (strip_ns e.tag) ∉
        (["entry", "item", "shopitem", "o", "price_with_vat"] : List String)) →
      asciiLower (strip_ns root.tag) ≠ "rss" →
      asciiLower (strip_ns root.tag) ≠ "feed" →
      detect_compari_ci root = true →
      (detected_spec_name root =
          some "Compari / Árukereső / Pazaruvaj (case-insensitive)" ∧
        detect_spec root = "Compari / Árukereső / Pazaruvaj (case-insensitive)" ∧
        detected_spec_name root ≠ some "Skroutz strict" ∧
        detect_spec root ≠ "Skroutz strict")) ∧
    (∀ root : Elem,
      (∀ e ∈ root.iterAll, asciiLower (strip_ns e.tag) ∉
        (["entry", "item", "shopitem", "o", "identifier", "productid"] : List String)) →
      asciiLower (strip_ns root.tag) ≠ "rss" →
      asciiLower (strip_ns root.tag) ≠ "feed" →
      findElems root (.descendant "product") ≠ [] →
      (∀ p ∈ findElems root (.descendant "product"),
        (∃ c ∈ p.children, c.tag = "price_with_vat") ∧
        (∃ c ∈ p.children, c.tag = "image") ∧ (∃ c ∈ p.children, c.tag = "link")) →
      (detected_spec_name root = some "Skroutz strict" ∧
        detect_spec root = "Skroutz strict")) := by
  constructor
  · intro root hEx hrss hfeed hcomp
    have hEx4 : ∀ e ∈ root.iterAll, asciiLower (strip_ns e.tag) ∉
        (["entry", "item", "shopitem", "o"] : List String) := by
      intro e he hm
      refine hEx e he ?_
      simp only [List.mem_cons, List.mem_singleton] at hm ⊢
      tauto
    have hExPwv : ∀ e ∈ root.iterAll, asciiLower (strip_ns e.tag) ≠ "price_with_vat" := by
      intro e he hm
      exact hEx e he (by simp [hm])
    have hgui : detected_spec_name root =
        some "Compari / Árukereső / Pazaruvaj (case-insensitive)" := by
      rw [gui_find_product_stage hEx4 hrss hfeed, if_pos hcomp]
    have hspec : detect_spec root = "Compari / Árukereső / Pazaruvaj (case-insensitive)" := by
      rw [detect_spec_product_stage hEx4 hrss (compari_products_ne hcomp)]
      cases hf : findElem root (.descendant "product") with
      | none =>
        cases hfl : _first_local root "product" with
        | none => rfl
        | some s =>
          have hs : s ∈ root.iterAll := List.mem_of_find?_eq_some hfl
          simp [no_pwv_check_false hExPwv hs]
      | some p =>
        have hp : p ∈ root.iterAll := by
          have hmem : p ∈ findElems root (.descendant "product") := by
            unfold findElem at hf
            cases hps : findElems root (.descendant "product") with
            | nil => rw [hps] at hf; simp at hf
            | cons q rest =>
              rw [hps] at hf
              simp only [List.head?_cons, Option.some.injEq] at hf
              rw [← hf]
              exact List.mem_cons_self _ _
          exact (mem_findElems_descendant hmem).1
        by_cases hpe : p.children.isEmpty
        · simp only [hpe, if_pos]
          cases hfl : _first_local root "product" with
          | none => simp [hpe]
          | some s =>
            have hs : s ∈ root.iterAll := List.mem_of_find?_eq_some hfl
            simp [hpe, hfl, no_pwv_check_false hExPwv hs]
        · simp [hpe, no_pwv_check_false hExPwv hp]
    refine ⟨hgui, hspec, by rw [hgui]; decide, by rw [hspec]; decide⟩
  · intro root hEx hrss hfeed hprod hall
    have hEx4 : ∀ e ∈ root.iterAll, asciiLower (strip_ns e.tag) ∉
        (["entry", "item", "shopitem", "o"] : List String) := by
      intro e he hm
      refine hEx e he ?_
      simp only [List.mem_cons, List.mem_singleton] at hm ⊢
      tauto
    obtain ⟨p0, rest, hps⟩ : ∃ p0 rest, findElems root (.descendant "product") = p0 :: rest := by
      cases hps : findElems root (.descendant "product") with
      | nil => exact absurd hps hprod
      | cons q r => exact ⟨q, r, rfl⟩
    have hp0mem : p0 ∈ findElems root (.descendant "product") := by
      rw [hps]; exact List.mem_cons_self _ _
    have hp0 := hall p0 hp0mem
    have hnoid : ∀ p ∈ findElems root (.descendant "product"), ∀ loc ∈ (["identifier",
        "productid"] : List String),
        (p.children.map (fun c => asciiLower (strip_ns c.tag))).contains loc = false := by
      intro p hp loc hloc
      by_contra hcc
      simp only [Bool.not_eq_false] at hcc
      obtain ⟨c, hc, hcl⟩ := List.mem_map.mp (List.mem_of_elem_eq_true hcc)
      have hpiter := (mem_findElems_descendant hp).1
      refine hEx c (mem_iterAll_trans root p hpiter c hc) ?_
      rw [hcl]
      simp only [List.mem_cons, List.mem_singleton] at hloc ⊢
      tauto
    have hcompF : detect_compari_ci root = false := by
      unfold detect_compari_ci
      rw [hps]
      rw [if_neg (by simp)]
      rw [List.any_eq_false]
      intro p hp
      have hpm : p ∈ findElems root (.descendant "product") := by rw [hps]; exact hp
      simp only [Bool.and_eq_true, Bool.or_eq_true, not_and]
      intro hor
      exfalso
      rcases hor with h | h
      · rw [hnoid p hpm "identifier" (by simp)] at h
        exact Bool.false_ne_true h
      · rw [hnoid p hpm "productid" (by simp)] at h
        exact Bool.false_ne_true h
    have hskT : detect_skroutz_strict root = true := by
      unfold detect_skroutz_strict
      rw [hps]
      rw [if_neg (by simp)]
      rw [List.any_eq_true]
      refine ⟨p0, List.mem_cons_self _ _, ?_⟩
      obtain ⟨⟨c1, hc1, ht1⟩, ⟨c2, hc2, ht2⟩, ⟨c3, hc3, ht3⟩⟩ := hp0
      simp only [List.all_eq_true]
      intro t ht
      simp only [List.mem_cons, List.not_mem_nil, or_false] at ht
      rcases ht with rfl | rfl | rfl
      · exact List.elem_eq_true_of_mem
          (List.mem_map.mpr ⟨c1, hc1, by rw [ht1]; decide⟩)
      · exact List.elem_eq_true_of_mem
          (List.mem_map.mpr ⟨c2, hc2, by rw [ht2]; decide⟩)
      · exact List.elem_eq_true_of_mem
          (List.mem_map.mpr ⟨c3, hc3, by rw [ht3]; decide⟩)
    constructor
    · rw [gui_find_product_stage hEx4 hrss hfeed]
      simp [hcompF, hskT]
    · rw [detect_spec_product_stage hEx4 hrss hprod]
      have hf : findElem root (.descendant "product") = some p0 := by
        unfold findElem
        rw [hps]
        rfl
      have hpe : p0.children.isEmpty = false := by
        obtain ⟨⟨c1, hc1, _⟩, _, _⟩ := hp0
        cases hcc : p0.children with
        | nil => rw [hcc] at hc1; simp at hc1
        | cons a b => rfl
      have hfind : (findElem p0 (.child ["price_with_vat"])).isSome = true := by
        unfold findElem
        rw [resolveSegs_single]
        obtain ⟨⟨c1, hc1, ht1⟩, _, _⟩ := hp0
        cases hff : p0.children.filter (fun c => c.tag = "price_with_vat") with
        | nil =>
          exfalso
          have hcm : c1 ∈ p0.children.filter (fun c => c.tag = "price_with_vat") :=
            List.mem_filter.mpr ⟨hc1, by simp [ht1]⟩
          rw [hff] at hcm
          simp at hcm
        | cons a b => rfl
      simp [hf, hpe, hfind]

/-- A `<products>` document carrying only the Compari field set. -/
def compariOnlyDoc : Elem :=
  ⟨"products", [], "", [
    ⟨"product", [], "", [⟨"identifier", [], "1", []⟩, ⟨"name", [], "n", []⟩,
      ⟨"product_url", [], "u", []⟩, ⟨"price", [], "5", []⟩,
      ⟨"image_url", [], "i", []⟩]⟩]⟩

/-- A `<products>` document carrying only the Skroutz field set. -/
def skroutzOnlyDoc : Elem :=
  ⟨"products", [], "", [
    ⟨"product", [], "", [⟨"id", [], "1", []⟩, ⟨"name", [], "n", []⟩,
      ⟨"link", [], "l", []⟩, ⟨"image", [], "i", []⟩,
      ⟨"price_with_vat", [], "5", []⟩]⟩]⟩

/-- C2 witness: the amended theorem applied to a concrete Compari-only and
a concrete Skroutz-only document. -/
theorem C2_product_disambiguation_witness :
    (detected_spec_name compariOnlyDoc =
        some "Compari / Árukereső / Pazaruvaj (case-insensitive)" ∧
      detect_spec compariOnlyDoc = "Compari / Árukereső / Pazaruvaj (case-insensitive)") ∧
    (detected_spec_name skroutzOnlyDoc = some "Skroutz strict" ∧
      detect_spec skroutzOnlyDoc = "Skroutz strict") := by
  constructor
  · have h := C2_product_disambiguation.1 compariOnlyDoc (by decide) (by decide)
      (by decide) (by decide)
    exact ⟨h.1, h.2.1⟩
  · exact C2_product_disambiguation.2 skroutzOnlyDoc (by decide) (by decide)
      (by decide) (fun h => List.noConfusion h) (by decide)

lemma severity_formula (d1 d2 mr : List (String × Nat)) (mic mac : Nat) :
    ((if (if !d1.isEmpty || !d2.isEmpty then "FAIL" else "PASS") ≠ "FAIL" then
        (if !mr.isEmpty || mic > 0 || mac > 0 then "WARN" else "PASS")
      else (if !d1.isEmpty || !d2.isEmpty then "FAIL" else "PASS")) = "PASS" ∨
     (if (if !d1.isEmpty || !d2.isEmpty then "FAIL" else "PASS") ≠ "FAIL" then
        (if !mr.isEmpty || mic > 0 || mac > 0 then "WARN" else "PASS")
      else (if !d1.isEmpty || !d2.isEmpty then "FAIL" else "PASS")) = "WARN" ∨
     (if (if !d1.isEmpty || !d2.isEmpty then "FAIL" else "PASS") ≠ "FAIL" then
        (if !mr.isEmpty || mic > 0 || mac > 0 then "WARN" else "PASS")
      else (if !d1.isEmpty || !d2.isEmpty then "FAIL" else "PASS")) = "FAIL") ∧
    ((if (if !d1.isEmpty || !d2.isEmpty then "FAIL" else "PASS") ≠ "FAIL" then
        (if !mr.isEmpty || mic > 0 || mac > 0 then "WARN" else "PASS")
      else (if !d1.isEmpty || !d2.isEmpty then "FAIL" else "PASS")) = "FAIL" ↔
      (d1 ≠ [] ∨ d2 ≠ [])) ∧
    ((if (if !d1.isEmpty || !d2.isEmpty then "FAIL" else "PASS") ≠ "FAIL" then
        (if !mr.isEmpty || mic > 0 || mac > 0 then "WARN" else "PASS")
      else (if !d1.isEmpty || !d2.isEmpty then "FAIL" else "PASS")) = "WARN" ↔
      (d1 = [] ∧ d2 = [] ∧ (mr ≠ [] ∨ 0 < mic ∨ 0 < mac))) := by
  by_cases hd : (!d1.isEmpty || !d2.isEmpty) = true
  · have hdup : d1 ≠ [] ∨ d2 ≠ [] := by
      rcases Bool.or_eq_true .. |>.mp hd with h | h
      · exact Or.inl (by simpa [List.isEmpty_iff] using h)
      · exact Or.inr (by simpa [List.isEmpty_iff] using h)
    rw [if_pos hd]
    rw [if_neg (by decide : ¬(("FAIL" : String) ≠ "FAIL"))]
    refine ⟨Or.inr (Or.inr rfl), ?_, ?_⟩
    · exact ⟨fun _ => hdup, fun _ => rfl⟩
    · constructor
      · intro h
        exact absurd h (by decide)
      · rintro ⟨h1, h2, _⟩
        rcases hdup with h | h
        · exact absurd h1 h
        · exact absurd h2 h
  · have hdup : d1 = [] ∧ d2 = [] := by
      have hor := Bool.or_eq_false_iff.mp (by
        cases hdd : (!d1.isEmpty || !d2.isEmpty) with
        | true => exact absurd hdd hd
        | false => rfl)
      constructor
      · have := hor.1
        simp only [Bool.not_eq_false'] at this
        exact (List.isEmpty_iff).mp this
      · have := hor.2
        simp only [Bool.not_eq_false'] at this
        exact (List.isEmpty_iff).mp this
    rw [if_neg hd]
    rw [if_pos (by decide : (("PASS" : String) ≠ "FAIL"))]
    by_cases hw : (!mr.isEmpty || mic > 0 || mac > 0) = true
    · have hwarn : mr ≠ [] ∨ 0 < mic ∨ 0 < mac := by
        rcases Bool.or_eq_true .. |>.mp hw with h | h
        · rcases Bool.or_eq_true .. |>.mp h with h1 | h1
          · exact Or.inl (by simpa [List.isEmpty_iff] using h1)
          · exact Or.inr (Or.inl (by simpa using h1))
        · exact Or.inr (Or.inr (by simpa using h))
      rw [if_pos hw]
      refine ⟨Or.inr (Or.inl rfl), ?_, ?_⟩
      · constructor
        · intro h
          exact absurd h (by decide)
        · rintro (h | h)
          · exact absurd hdup.1 h
          · exact absurd hdup.2 h
      · exact ⟨fun _ => ⟨hdup.1, hdup.2, hwarn⟩, fun _ => rfl⟩
    · have hwarnF : ¬(mr ≠ [] ∨ 0 < mic ∨ 0 < mac) := by
        intro hcon
        apply hw
        rcases hcon with h | h | h
        · exact Bool.or_eq_true .. |>.mpr (Or.inl (Bool.or_eq_true .. |>.mpr
            (Or.inl (by simpa [List.isEmpty_iff] using h))))
        · exact Bool.or_eq_true .. |>.mpr (Or.inl (Bool.or_eq_true .. |>.mpr
            (Or.inr (by simpa using h))))
        · exact Bool.or_eq_true .. |>.mpr (Or.inr (by simpa using h))
    
      rw [if_neg hw]
      refine ⟨Or.inl rfl, ?_, ?_⟩
      · constructor
        · intro h
          exact absurd h (by decide)
        · rintro (h | h)
          · exact absurd hdup.1 h
          · exact absurd hdup.2 h
      · constructor
        · intro h
          exact absurd h (by decide)
        · rintro ⟨_, _, hlast⟩
          exact absurd hlast hwarnF

lemma fail_ne_warn : ("FAIL" : String) ≠ "WARN" := by decide

/-- C9: analyze_feed's severity is always PASS, WARN or FAIL; it is FAIL
exactly when parsing failed, no strict spec matched (Unrecognized), the
detected spec yielded zero items, or a duplicate non-empty id or url
exists; it is WARN exactly when none of those hold and some required tag,
primary image or availability is missing; and URL-encoding issues are
recorded in url_issues (as find_url_issues of the extracted urls/imgs)
without entering the severity conditions. -/
theorem C9_severity_invariant (inp : Except String Elem) :
    ((analyze_feed inp).severity = "PASS" ∨ (analyze_feed inp).severity = "WARN" ∨
      (analyze_feed inp).severity = "FAIL") ∧
    ((analyze_feed inp).severity = "FAIL" ↔
      ((analyze_feed inp).xml_ok = false ∨
        (analyze_feed inp).detected = some "Unrecognized" ∨
        (analyze_feed inp).items = 0 ∨
        (analyze_feed inp).dup_ids ≠ [] ∨ (analyze_feed inp).dup_urls ≠ [])) ∧
    ((analyze_feed inp).severity = "WARN" ↔
      ((analyze_feed inp).xml_ok = true ∧
        (analyze_feed inp).detected ≠ some "Unrecognized" ∧
        (analyze_feed inp).items ≠ 0 ∧
        (analyze_feed inp).dup_ids = [] ∧ (analyze_feed inp).dup_urls = [] ∧
        ((analyze_feed inp).missing_required ≠ [] ∨
          0 < (analyze_feed inp).missing_img_count ∨
          0 < (analyze_feed inp).missing_availability_count))) ∧
    ((analyze_feed inp).xml_ok = true →
      (analyze_feed inp).detected ≠ some "Unrecognized" →
      (analyze_feed inp).items ≠ 0 →
      ((analyze_feed inp).url_issues_products = find_url_issues (analyze_feed inp).urls ∧
        (analyze_feed inp).url_issues_images = find_url_issues (analyze_feed inp).imgs)) := by
  cases inp with
  | error e =>
    refine ⟨Or.inr (Or.inr rfl), ⟨fun _ => Or.inl rfl, fun _ => rfl⟩, ?_,
      fun _ _ _ => ⟨rfl, rfl⟩⟩
    constructor
    · intro h
      exact absurd h fail_ne_warn
    · rintro ⟨h1, -⟩
      exact absurd h1 Bool.false_ne_true
  | ok root =>
    rcases hfind : SPECS.find? (fun s => s.detect_fn root) with _ | spec
    · have hout : analyze_feed (Except.ok root) =
          { initOut with
            xml_ok := true
            detected := some "Unrecognized"
            severity := "FAIL" } := by
        simp only [analyze_feed]
        rw [hfind]
      rw [hout]
      decide
    · have hmem := List.mem_of_find?_eq_some hfind
      have hname : spec.name ≠ "Unrecognized" := by
        simp only [SPECS, List.mem_cons, List.not_mem_nil, or_false] at hmem
        rcases hmem with rfl | rfl | rfl | rfl | rfl | rfl | rfl <;> decide
      have hdet : (some spec.name ≠ some "Unrecognized") := by
        intro h
        exact hname (Option.some.inj h)
      by_cases hitems : (spec.items_getter root).length = 0
      · have hout : analyze_feed (Except.ok root) =
            { initOut with
              xml_ok := true
              detected := some spec.name
              severity := "FAIL"
              notes := ["No items found for detected transformation."] } := by
          simp only [analyze_feed]
          rw [hfind]
          simp only [if_pos hitems]
        rw [hout]
        refine ⟨Or.inr (Or.inr rfl), ?_, ?_, fun _ _ _ => ⟨rfl, rfl⟩⟩
        · exact ⟨fun _ => Or.inr (Or.inr (Or.inl rfl)), fun _ => rfl⟩
        · constructor
          · intro h
            exact absurd h fail_ne_warn
          · rintro ⟨-, -, h3, -⟩
            exact absurd rfl h3
      · have hout : analyze_feed (Except.ok root) =
            { xml_ok := true, detected := some spec.name,
              items := (spec.items_getter root).length,
              missing_required := missingRequired spec (spec.items_getter root),
              ids := (spec.items_getter root).map
                (fun it => (get_text it spec.id_xpath).getD ""),
              urls := (spec.items_getter root).map
                (fun it => (get_text it spec.url_xpath).getD ""),
              imgs := (spec.items_getter root).map
                (fun it => (get_text it spec.image_xpath).getD ""),
              dup_ids := dup_map ((spec.items_getter root).map
                (fun it => (get_text it spec.id_xpath).getD "")),
              dup_urls := dup_map ((spec.items_getter root).map
                (fun it => (get_text it spec.url_xpath).getD "")),
              missing_img_count := (((spec.items_getter root).map
                (fun it => (get_text it spec.image_xpath).getD "")).filter
                  (fun x => x = "")).length,
              missing_availability_count := ((spec.items_getter root).map
                (fun it => has_availability it spec)).countP (fun ok => ok = false),
              severity :=
                (if (if !(dup_map ((spec.items_getter root).map
                        (fun it => (get_text it spec.id_xpath).getD ""))).isEmpty ||
                      !(dup_map ((spec.items_getter root).map
                        (fun it => (get_text it spec.url_xpath).getD ""))).isEmpty
                    then "FAIL" else "PASS") ≠ "FAIL" then
                  (if !(missingRequired spec (spec.items_getter root)).isEmpty ||
                      (((spec.items_getter root).map
                        (fun it => (get_text it spec.image_xpath).getD "")).filter
                          (fun x => x = "")).length > 0 ||
                      ((spec.items_getter root).map
                        (fun it => has_availability it spec)).countP
                          (fun ok => ok = false) > 0
                   then "WARN" else "PASS")
                 else (if !(dup_map ((spec.items_getter root).map
                        (fun it => (get_text it spec.id_xpath).getD ""))).isEmpty ||
                      !(dup_map ((spec.items_getter root).map
                        (fun it => (get_text it spec.url_xpath).getD ""))).isEmpty
                    then "FAIL" else "PASS")),
              notes := [],
              url_issues_products := find_url_issues ((spec.items_getter root).map
                (fun it => (get_text it spec.url_xpath).getD "")),
              url_issues_images := find_url_issues ((spec.items_getter root).map
                (fun it => (get_text it spec.image_xpath).getD "")) } := by
          simp only [analyze_feed]
          rw [hfind]
          simp only [if_neg hitems]
          rfl
        rw [hout]
        generalize dup_map ((spec.items_getter root).map
          (fun it => (get_text it spec.id_xpath).getD "")) = d1
        generalize dup_map ((spec.items_getter root).map
          (fun it => (get_text it spec.url_xpath).getD "")) = d2
        generalize missingRequired spec (spec.items_getter root) = mr
        generalize (((spec.items_getter root).map
          (fun it => (get_text it spec.image_xpath).getD "")).filter
            (fun x => x = "")).length = mic
        generalize ((spec.items_getter root).map
          (fun it => has_availability it spec)).countP (fun ok => ok = false) = mac
        obtain ⟨hA, hB, hC⟩ := severity_formula d1 d2 mr mic mac
        refine ⟨hA, ?_, ?_, fun _ _ _ => ⟨rfl, rfl⟩⟩
        · constructor
          · intro h
            rcases hB.mp h with h1 | h1
            · exact Or.inr (Or.inr (Or.inr (Or.inl h1)))
            · exact Or.inr (Or.inr (Or.inr (Or.inr h1)))
          · rintro (h | h | h | h | h)
            · exact Bool.noConfusion h
            · exact absurd h hdet
            · exact absurd h hitems
            · exact hB.mpr (Or.inl h)
            · exact hB.mpr (Or.inr h)
        · constructor
          · intro h
            obtain ⟨hx, hy, hz⟩ := hC.mp h
            exact ⟨rfl, hdet, hitems, hx, hy, hz⟩
          · rintro ⟨-, -, -, h4, h5, h6⟩
            exact hC.mpr ⟨h4, h5, h6⟩

/-- C9 witness: the invariant instantiated on a parsed Heureka document
whose spec is detected and yields one item — the url_issues implication's
premises are discharged concretely. -/
theorem C9_severity_invariant_witness :
    (analyze_feed (Except.ok heurekaDocSample)).url_issues_products =
      find_url_issues (analyze_feed (Except.ok heurekaDocSample)).urls ∧
    (analyze_feed (Except.ok heurekaDocSample)).url_issues_images =
      find_url_issues (analyze_feed (Except.ok heurekaDocSample)).imgs :=
  (C9_severity_invariant (Except.ok heurekaDocSample)).2.2.2 (by decide) (by decide)
    (by decide)

end FeedChecker
